import Mathlib

/-!
Verification of the job-orchestration core of the linkedin-agent repository:
a shallow embedding of `src/backend/src/database.py` (the Job Store) and
`src/backend/src/worker.py` (the Worker Loop: batch planning, retry loop and
merge), with theorems settling the spec's claims about them.

Conventions of the embedding:
* SQLite rows become Lean structures; TEXT status columns stay `String`.
* Timestamps (`datetime.utcnow().isoformat()`) are opaque increasing values,
  modelled as a `Nat` clock passed explicitly to each operation.
* Each Job Store method runs in its own transaction (as in the source); a
  method is a pure function `DB → Except String DB`, the `.error` case being
  a raised Python exception (`ValueError` etc.).
* The filesystem is an association list from path to file data, newest
  entry first (a write shadows older entries).
* The external batch executor (a subprocess in the source) is an oracle
  mapping (batch input path, attempt number) to an outcome.
-/

set_option maxHeartbeats 1000000

namespace LinkedinAgent

/-- A small model of Python values, enough for the `input_json` and
`owner_email` arguments of `create_job` and their `isinstance`/truthiness
checks. -/
inductive PyVal where
  | pynone
  | pystr (s : String)
  | pyint (n : Int)
  | pybool (b : Bool)
  | pydict (fields : List (String × PyVal))
  | pylist (xs : List PyVal)

/-- Python truthiness of a `PyVal`. -/
def PyVal.truthy : PyVal → Bool
  | .pynone => false
  | .pystr s => !(s == "")
  | .pyint n => !(n == 0)
  | .pybool b => b
  | .pydict fields => !fields.isEmpty
  | .pylist xs => !xs.isEmpty

/-- `isinstance(v, dict)`. -/
def PyVal.isDict : PyVal → Bool
  | .pydict _ => true
  | _ => false

/-- `isinstance(v, str)`. -/
def PyVal.isStr : PyVal → Bool
  | .pystr _ => true
  | _ => false

/-- Model of the Python emptiness check `not s.strip()`: true iff every
character of `s` is whitespace. -/
def pyStrBlank (s : String) : Bool := s.data.all Char.isWhitespace

/-- The `result_json` value stored by the worker
(`{"final_xlsx": ..., "batches": ...}` in `process_job`). -/
structure JobResult where
  finalXlsx : String
  batches : List String
deriving DecidableEq

/-- A row of the `jobs` table (schema `DB_SCHEMA` in database.py). -/
structure JobRow where
  id : Int
  ownerEmail : PyVal
  inputJson : PyVal
  status : String
  createdAt : Nat
  startedAt : Option Nat
  finishedAt : Option Nat
  resultJson : Option JobResult
  logPath : Option String
  errorMsg : Option String

/-- A row of the `batches` table (schema `DB_SCHEMA` in database.py). -/
structure BatchRow where
  id : Int
  jobId : Int
  batchIndex : Int
  inputPath : String
  outputPath : Option String
  status : String
  startedAt : Option Nat
  finishedAt : Option Nat
  errorMsg : Option String
deriving DecidableEq

/-- The SQLite database state: both tables plus the AUTOINCREMENT counters. -/
structure DB where
  jobs : List JobRow
  batches : List BatchRow
  nextJobId : Int
  nextBatchId : Int

def jobStatusValues : List String := ["queued", "running", "finished", "failed"]

def batchStatusValues : List String := ["pending", "running", "finished", "failed"]

/-- `JobDB.create_job`: validation exactly as in the source
(`not isinstance(input_json, dict)` raises; `owner_email and not
isinstance(owner_email, str)` raises — so a falsy owner such as `None` or
`""` is accepted), then INSERT with status 'queued'. -/
def create_job (db : DB) (inputJson ownerEmail : PyVal) (now : Nat) :
    Except String (DB × Int) :=
  if !inputJson.isDict then .error "input_json must be a dictionary"
  else if ownerEmail.truthy && !ownerEmail.isStr then .error "owner_email must be a string"
  else
    let row : JobRow :=
      { id := db.nextJobId, ownerEmail := ownerEmail, inputJson := inputJson,
        status := "queued", createdAt := now, startedAt := none, finishedAt := none,
        resultJson := none, logPath := none, errorMsg := none }
    .ok ({ db with jobs := db.jobs ++ [row], nextJobId := db.nextJobId + 1 }, db.nextJobId)

/-- The per-row effect of the UPDATE statements in
`JobDB.update_job_status`: `running` sets `started_at`, terminal statuses set
`finished_at` and `error_msg`, anything else only the status column. -/
def jobStatusUpdateRow (jid : Int) (status : String) (errorMsg : Option String)
    (now : Nat) (j : JobRow) : JobRow :=
  if j.id == jid then
    if status == "running" then { j with status := status, startedAt := some now }
    else if status == "finished" || status == "failed" then
      { j with status := status, finishedAt := some now, errorMsg := errorMsg }
    else { j with status := status }
  else j

/-- `JobDB.update_job_status`: argument validation, then the UPDATE in a
single transaction. -/
def update_job_status (db : DB) (jobId : Int) (status : String)
    (errorMsg : Option String) (now : Nat) : Except String DB :=
  if jobId ≤ 0 then .error "job_id must be a positive integer"
  else if !(jobStatusValues.contains status) then
    .error "status must be one of: queued, running, finished, failed"
  else .ok { db with jobs := db.jobs.map (jobStatusUpdateRow jobId status errorMsg now) }

/-- The per-row effect of the UPDATE in `JobDB.save_job_result`. -/
def jobResultUpdateRow (jid : Int) (result : JobResult) (j : JobRow) : JobRow :=
  if j.id == jid then { j with resultJson := some result } else j

/-- `JobDB.save_job_result`. -/
def save_job_result (db : DB) (jobId : Int) (result : JobResult) : Except String DB :=
  if jobId ≤ 0 then .error "job_id must be a positive integer"
  else .ok { db with jobs := db.jobs.map (jobResultUpdateRow jobId result) }

/-- `JobDB.get_job`: `SELECT * FROM jobs WHERE id=?` then `fetchone`. -/
def get_job (db : DB) (jobId : Int) : Except String (Option JobRow) :=
  if jobId ≤ 0 then .error "job_id must be a positive integer"
  else .ok (db.jobs.find? (fun j => j.id == jobId))

/-- `JobDB.create_batch`: validation exactly as in the source, then INSERT
with status 'pending'. -/
def create_batch (db : DB) (jobId batchIndex : Int) (inputPath : String) :
    Except String (DB × Int) :=
  if jobId ≤ 0 then .error "job_id must be a positive integer"
  else if batchIndex < 0 then .error "batch_index must be a non-negative integer"
  else if pyStrBlank inputPath then .error "input_path must be a non-empty string"
  else
    let row : BatchRow :=
      { id := db.nextBatchId, jobId := jobId, batchIndex := batchIndex,
        inputPath := inputPath, outputPath := none, status := "pending",
        startedAt := none, finishedAt := none, errorMsg := none }
    .ok ({ db with batches := db.batches ++ [row], nextBatchId := db.nextBatchId + 1 },
         db.nextBatchId)

/-- The per-row effect of the UPDATE statements in
`JobDB.update_batch_status`: note that none of the three branches touches
`output_path`. -/
def batchStatusUpdateRow (bid : Int) (status : String) (errorMsg : Option String)
    (now : Nat) (b : BatchRow) : BatchRow :=
  if b.id == bid then
    if status == "running" then { b with status := status, startedAt := some now }
    else if status == "finished" || status == "failed" then
      { b with status := status, finishedAt := some now, errorMsg := errorMsg }
    else { b with status := status }
  else b

/-- `JobDB.update_batch_status`: argument validation, then the UPDATE in a
single transaction. -/
def update_batch_status (db : DB) (batchId : Int) (status : String)
    (errorMsg : Option String) (now : Nat) : Except String DB :=
  if batchId ≤ 0 then .error "batch_id must be a positive integer"
  else if !(batchStatusValues.contains status) then
    .error "status must be one of: pending, running, finished, failed"
  else .ok { db with batches := db.batches.map (batchStatusUpdateRow batchId status errorMsg now) }

/-- The per-row effect of the UPDATE in `JobDB.save_batch_output`. -/
def batchOutputUpdateRow (bid : Int) (outputPath : String) (b : BatchRow) : BatchRow :=
  if b.id == bid then { b with outputPath := some outputPath } else b

/-- `JobDB.save_batch_output`: its own transaction, separate from any status
update. -/
def save_batch_output (db : DB) (batchId : Int) (outputPath : String) :
    Except String DB :=
  if batchId ≤ 0 then .error "batch_id must be a positive integer"
  else if pyStrBlank outputPath then .error "output_path must be a non-empty string"
  else .ok { db with batches := db.batches.map (batchOutputUpdateRow batchId outputPath) }

/-- The ORDER BY relation of `get_batches`. -/
def byIndex (a b : BatchRow) : Prop := a.batchIndex ≤ b.batchIndex

instance : DecidableRel byIndex := fun a b => Int.decLe a.batchIndex b.batchIndex

instance : IsTotal BatchRow byIndex := ⟨fun a b => Int.le_total a.batchIndex b.batchIndex⟩

instance : IsTrans BatchRow byIndex := ⟨fun _ _ _ h h' => Int.le_trans h h'⟩

/-- `JobDB.get_batches`: `SELECT * FROM batches WHERE job_id=? ORDER BY
batch_index ASC`. The sort is modelled as a stable insertion sort; ties
(duplicate indexes) keep insertion order. -/
def get_batches (db : DB) (jobId : Int) : Except String (List BatchRow) :=
  if jobId ≤ 0 then .error "job_id must be a positive integer"
  else .ok (List.insertionSort byIndex (db.batches.filter (fun b => b.jobId == jobId)))

/-- `JobDB.get_batch`: `SELECT * FROM batches WHERE id=?` then `fetchone`. -/
def get_batch (db : DB) (batchId : Int) : Except String (Option BatchRow) :=
  if batchId ≤ 0 then .error "batch_id must be a positive integer"
  else .ok (db.batches.find? (fun b => b.id == batchId))

/-! ### Filesystem model (worker.py reads and writes batch/output files) -/

/-- What the worker can observe of a file: `size` models `stat().st_size`,
`table` the result of parsing it as a dataframe (`none` = unreadable as a
table). Rows are kept abstract as strings. -/
structure FileData where
  size : Nat
  table : Option (List String)
deriving DecidableEq

/-- Association list from path to file data; a write shadows older
entries. -/
abbrev FS := List (String × FileData)

def fsLookup (fs : FS) (p : String) : Option FileData :=
  (fs.find? (fun e => e.1 == p)).map Prod.snd

def fsWrite (fs : FS) (p : String) (d : FileData) : FS := (p, d) :: fs

/-- Model of Python `str.endswith`. -/
def pyEndsWith (s suffix : String) : Bool := suffix.data.isSuffixOf s.data

/-! ### Worker constants and path construction (worker.py top / process_job) -/

def BATCH_SIZE : Nat := 10000

def MAX_RETRIES : Nat := 3

/-- `JOBS_DIR` comes from the environment in the source; its exact value is
irrelevant to the claims, only that it is a fixed non-blank prefix. -/
def JOBS_DIR : String := "/data/jobs"

/-- Python `f"{n:04d}"` for a non-negative integer. -/
def pad4 (n : Nat) : String :=
  let s := Nat.repr n
  String.mk (List.replicate (4 - s.length) '0') ++ s

def padIndex (i : Int) : String := pad4 i.toNat

def jobDirOf (jobId : Int) : String := JOBS_DIR ++ "/job_" ++ toString jobId

def batchesDirOf (jobId : Int) : String := jobDirOf jobId ++ "/batches"

def outputsDirOf (jobId : Int) : String := jobDirOf jobId ++ "/outputs"

def finalXlsxPath (jobId : Int) : String :=
  JOBS_DIR ++ "/job_" ++ toString jobId ++ "_final.xlsx"

def outJsonOf (outputsDir : String) (idx : Int) : String :=
  outputsDir ++ "/batch_" ++ padIndex idx ++ "_output.json"

def outXlsxOf (outputsDir : String) (idx : Int) : String :=
  outputsDir ++ "/batch_" ++ padIndex idx ++ "_output.xlsx"

def batchInputJsonOf (outputsDir : String) (idx : Int) : String :=
  outputsDir ++ "/batch_" ++ padIndex idx ++ "_input.json"

/-! ### Batch Planner (`batch_csv` / `batch_xlsx` in worker.py) -/

/-- The start offsets of `for i in range(0, n, batch_size)`:
`ceil(n / B)` of them, spaced `B` apart. -/
def sliceStarts (n B : Nat) : List Nat := List.range' 0 ((n + B - 1) / B) B

/-- The row slices `df.slice(i, batch_size)` taken by the planner loop. -/
def batchSlices (rows : List String) (B : Nat) : List (List String) :=
  (sliceStarts rows.length B).map (fun i => (rows.drop i).take B)

/-- `batch_csv`: read the input as a table, slice it into `ceil(n/B)`
contiguous chunks, write each chunk to `batch_{i//B:04d}.csv` in
`output_dir`, return the ordered file list. -/
def batch_csv (fs : FS) (inputPath outputDir : String) (batchSize : Nat) :
    Except String (FS × List String) :=
  if batchSize == 0 then .error "range() arg 3 must not be zero"
  else
    match fsLookup fs inputPath with
    | none => .error "read_csv: file not found"
    | some fd =>
      match fd.table with
      | none => .error "read_csv: parse error"
      | some rows =>
        let starts := sliceStarts rows.length batchSize
        let files := starts.map (fun i => outputDir ++ "/batch_" ++ pad4 (i / batchSize) ++ ".csv")
        let fs2 := starts.foldl
          (fun fs1 i =>
            fsWrite fs1 (outputDir ++ "/batch_" ++ pad4 (i / batchSize) ++ ".csv")
              { size := 1 + ((rows.drop i).take batchSize).length,
                table := some ((rows.drop i).take batchSize) })
          fs
        .ok (fs2, files)

/-- `batch_xlsx`: identical to `batch_csv` except for the extension. -/
def batch_xlsx (fs : FS) (inputPath outputDir : String) (batchSize : Nat) :
    Except String (FS × List String) :=
  if batchSize == 0 then .error "range() arg 3 must not be zero"
  else
    match fsLookup fs inputPath with
    | none => .error "read_excel: file not found"
    | some fd =>
      match fd.table with
      | none => .error "read_excel: parse error"
      | some rows =>
        let starts := sliceStarts rows.length batchSize
        let files := starts.map (fun i => outputDir ++ "/batch_" ++ pad4 (i / batchSize) ++ ".xlsx")
        let fs2 := starts.foldl
          (fun fs1 i =>
            fsWrite fs1 (outputDir ++ "/batch_" ++ pad4 (i / batchSize) ++ ".xlsx")
              { size := 1 + ((rows.drop i).take batchSize).length,
                table := some ((rows.drop i).take batchSize) })
          fs
        .ok (fs2, files)

/-! ### Merge (`merge_excel` in worker.py) -/

/-- `merge_excel`: keep only outputs that exist, have positive size and
parse; if any survive, write their concatenation to `final_path`, otherwise
write nothing at all. -/
def merge_excel (fs : FS) (outputs : List String) (finalPath : String) : FS :=
  let dfs := outputs.filterMap (fun f =>
    match fsLookup fs f with
    | none => none
    | some fd => if fd.size > 0 then fd.table else none)
  if dfs.isEmpty then fs
  else fsWrite fs finalPath { size := 1 + dfs.flatten.length, table := some dfs.flatten }

/-! ### The external batch executor (`run_batch` in worker.py) -/

/-- Outcome of one invocation of the batch executor subprocess. -/
inductive ExecOutcome where
  | success (rows : List String)
  | failure (err : String)

/-- The executor as an oracle over (batch input path, invocation number):
the subprocess is external nondeterminism, so successive attempts on the
same batch may differ. -/
abbrev Executor := String → Nat → ExecOutcome

/-- `run_batch`: on success write the JSON output then the converted Excel
output and return `(True, None)`; on any exception write the error JSON and
return `(False, str(e))`. -/
def run_batch (ex : Executor) (attempt : Nat) (fs : FS)
    (batchJsonPath outputJson outputXlsx : String) : FS × Bool × Option String :=
  match ex batchJsonPath attempt with
  | .success rows =>
      let fs1 := fsWrite fs outputJson { size := 1, table := none }
      let fs2 := fsWrite fs1 outputXlsx { size := 1 + rows.length, table := some rows }
      (fs2, true, none)
  | .failure err =>
      (fsWrite fs outputJson { size := 1, table := none }, false, some err)

/-! ### Worker state and events -/

/-- Observable side effects of the worker besides the store and files. -/
inductive Ev where
  | execCall (batchId batchIndex : Int) (attempt : Nat)
  | sleep (seconds : Nat)
  | webhookPost (url : String)
deriving DecidableEq

/-- Worker-visible world: database, filesystem, event trace, clock. -/
structure WState where
  db : DB
  fs : FS
  evs : List Ev
  clock : Nat

/-- The dequeued job descriptor (`job` dict in `process_job`). -/
structure JobDesc where
  jobId : Int
  inputType : Option String
  inputPath : Option String
  query : Option String
  webhook : Option String

/-- Truthiness of `job.get(key)` for an optional string field. -/
def optTruthy : Option String → Bool
  | some s => !(s == "")
  | none => false

def numExecCalls (evs : List Ev) : Nat :=
  (evs.filter (fun e => match e with | .execCall _ _ _ => true | _ => false)).length

/-! ### The per-batch retry loop (worker.py lines 163-185) -/

/-- The batch input JSON path prepared at the top of every attempt. -/
def batchJsonPathOf (outputsDir : String) (row : BatchRow) : String :=
  if pyEndsWith row.inputPath ".json" then row.inputPath
  else batchInputJsonOf outputsDir row.batchIndex

/-- One pass over `for attempt in range(1, MAX_RETRIES+1)`: mark running,
prepare the batch input JSON, invoke the executor; on success mark finished,
save the output locator and break; on failure mark failed with the error
message and sleep `10 * attempt` before the next attempt. -/
def attemptBatch (ex : Executor) (row : BatchRow)
    (outputsDir outputJson outputXlsx : String) :
    List Nat → WState → Except String WState
  | [], st => .ok st
  | attempt :: rest, st => do
      let db1 ← update_batch_status st.db row.id "running" none st.clock
      let fs1 :=
        if pyEndsWith row.inputPath ".json" then st.fs
        else fsWrite st.fs (batchInputJsonOf outputsDir row.batchIndex)
          { size := 1, table := none }
      let out := run_batch ex attempt fs1 (batchJsonPathOf outputsDir row) outputJson outputXlsx
      let st1 : WState :=
        { db := db1, fs := out.1, evs := st.evs ++ [.execCall row.id row.batchIndex attempt],
          clock := st.clock + 1 }
      if out.2.1 then do
        let db2 ← update_batch_status st1.db row.id "finished" none st1.clock
        let db3 ← save_batch_output db2 row.id outputXlsx
        .ok { st1 with db := db3, clock := st1.clock + 1 }
      else do
        let db2 ← update_batch_status st1.db row.id "failed" out.2.2 st1.clock
        let st2 : WState :=
          { st1 with db := db2, clock := st1.clock + 1, evs := st1.evs ++ [.sleep (10 * attempt)] }
        attemptBatch ex row outputsDir outputJson outputXlsx rest st2

/-- The body of `for batch_row in jobdb.get_batches(job_id)`: skip a batch
already finished whose output file exists, otherwise run the retry loop and
re-read the batch row (a `None` row would crash the subscript). -/
def processBatchRow (ex : Executor) (outputsDir : String) (row : BatchRow)
    (st : WState) : Except String WState :=
  if row.status == "finished" && (fsLookup st.fs (outXlsxOf outputsDir row.batchIndex)).isSome
  then .ok st
  else do
    let st1 ← attemptBatch ex row outputsDir (outJsonOf outputsDir row.batchIndex)
      (outXlsxOf outputsDir row.batchIndex) (List.range' 1 MAX_RETRIES) st
    let rechecked ← get_batch st1.db row.id
    match rechecked with
    | none => .error "TypeError: NoneType object is not subscriptable"
    | some _ => .ok st1

/-- Iterate the batch loop over the snapshot returned by `get_batches`. -/
def processBatches (ex : Executor) (outputsDir : String) :
    List BatchRow → WState → Except String WState
  | [], st => .ok st
  | row :: rest, st => do
      let st1 ← processBatchRow ex outputsDir row st
      processBatches ex outputsDir rest st1

/-! ### Planning and registration (worker.py lines 130-149) -/

/-- The input-type dispatch of `process_job`: csv, elif excel, elif query,
else no valid input (`none`). -/
def planBatches (job : JobDesc) (batchesDir : String) (fs : FS) :
    Option (Except String (FS × List String)) :=
  if job.inputType == some "csv" && optTruthy job.inputPath then
    some (batch_csv fs (job.inputPath.getD "") batchesDir BATCH_SIZE)
  else if job.inputType == some "excel" && optTruthy job.inputPath then
    some (batch_xlsx fs (job.inputPath.getD "") batchesDir BATCH_SIZE)
  else if optTruthy job.query then
    some (.ok (fsWrite fs (batchesDir ++ "/batch_0000.json") { size := 1, table := none },
               [batchesDir ++ "/batch_0000.json"]))
  else none

/-- `for idx, batch_file in enumerate(batch_files): jobdb.create_batch(...)`
— unconditionally, whether or not batch rows for the job already exist. -/
def registerBatchesFrom (jobId : Int) : Nat → List String → DB → Except String DB
  | _, [], db => .ok db
  | idx, f :: rest, db => do
      let res ← create_batch db jobId (Int.ofNat idx) f
      registerBatchesFrom jobId (idx + 1) rest res.1

/-! ### Merge and job finalization (worker.py lines 191-197) -/

/-- The list comprehension collecting `output_path` of batches with
`status == "finished"` and a truthy `output_path`. -/
def collectFinishedOutputs (rows : List BatchRow) : List String :=
  rows.filterMap (fun r =>
    if r.status == "finished" then
      match r.outputPath with
      | some p => if p == "" then none else some p
      | none => none
    else none)

/-- Lines 191-197 of worker.py: collect finished outputs, merge them into
the final artifact path, mark the job finished, store the result pointer. -/
def finalizeJob (db : DB) (fs : FS) (jobId : Int) (now : Nat) :
    Except String (DB × FS × List String) := do
  let rows ← get_batches db jobId
  let batchOutputs := collectFinishedOutputs rows
  let fs1 := merge_excel fs batchOutputs (finalXlsxPath jobId)
  let db1 ← update_job_status db jobId "finished" none now
  let db2 ← save_job_result db1 jobId
    { finalXlsx := finalXlsxPath jobId, batches := batchOutputs }
  .ok (db2, fs1, batchOutputs)

/-- `process_job`: plan (always — no check for pre-existing batch rows),
register every planned batch, iterate the snapshot of `get_batches` with the
retry loop, then merge and finalize; a missing valid input marks the job
failed and returns normally. -/
def process_job (ex : Executor) (job : JobDesc) (st : WState) :
    Except String WState := do
  let batchesDir := batchesDirOf job.jobId
  let outputsDir := outputsDirOf job.jobId
  match planBatches job batchesDir st.fs with
  | none => do
      let db1 ← update_job_status st.db job.jobId "failed"
        (some "No valid input for job") st.clock
      .ok { st with db := db1, clock := st.clock + 1 }
  | some planned => do
      let plannedOut ← planned
      let db1 ← registerBatchesFrom job.jobId 0 plannedOut.2 st.db
      let st1 : WState := { st with db := db1, fs := plannedOut.1 }
      let rows ← get_batches st1.db job.jobId
      let st2 ← processBatches ex outputsDir rows st1
      let fin ← finalizeJob st2.db st2.fs job.jobId st2.clock
      let st3 : WState := { st2 with db := fin.1, fs := fin.2.1, clock := st2.clock + 1 }
      match job.webhook with
      | some url => .ok { st3 with evs := st3.evs ++ [.webhookPost url] }
      | none => .ok st3

/-! ### Claim C2 — terminal `finished_at` is not write-once -/

def c2job : JobRow :=
  { id := 1, ownerEmail := .pynone, inputJson := .pydict [], status := "finished",
    createdAt := 0, startedAt := some 1, finishedAt := some 5, resultJson := none,
    logPath := none, errorMsg := none }

def c2db : DB := { jobs := [c2job], batches := [], nextJobId := 2, nextBatchId := 1 }

def c2db' : DB := (update_job_status c2db 1 "finished" none 9).toOption.getD c2db

/-- C2 counterexample: a job already in terminal status `finished` with
`finished_at = 5`; a further `update_job_status(1, "finished")` at time 9
succeeds and rewrites `finished_at` to 9, so the terminal timestamp is not
write-once. -/
theorem C2_cex_terminal_timestamp_rewritten :
    c2job.status = "finished" ∧ c2job.finishedAt = some 5 ∧
    (update_job_status c2db 1 "finished" none 9).map (fun d => d.jobs.map JobRow.finishedAt)
      = .ok [some 9] :=
  ⟨rfl, rfl, rfl⟩

/-- C2 (amended): for a job in terminal status, a further `update_job_status`
with `queued` or `running` leaves `finished_at` unchanged, but a further call
with `finished` or `failed` overwrites `finished_at` with the current time:
the terminal timestamp is write-once only against non-terminal statuses. -/
theorem C2_terminal_timestamp_behavior (db : DB) (jid : Int) (st : String)
    (em : Option String) (now : Nat) (db' : DB)
    (hok : update_job_status db jid st em now = .ok db') :
    db'.jobs = db.jobs.map (jobStatusUpdateRow jid st em now) ∧
    ∀ j : JobRow, j.status = "finished" ∨ j.status = "failed" →
      (((st = "queued" ∨ st = "running") →
          (jobStatusUpdateRow jid st em now j).finishedAt = j.finishedAt) ∧
        (j.id = jid → (st = "finished" ∨ st = "failed") →
          (jobStatusUpdateRow jid st em now j).finishedAt = some now)) := by
  unfold update_job_status at hok
  constructor
  · split at hok
    · exact Except.noConfusion hok
    · split at hok
      · exact Except.noConfusion hok
      · rw [← Except.ok.inj hok]
  · intro j _hterm
    constructor
    · rintro (h | h) <;> subst h <;> unfold jobStatusUpdateRow <;>
        by_cases hid : j.id == jid <;> simp [hid]
    · intro hid hst
      unfold jobStatusUpdateRow
      rcases hst with h | h <;> subst h <;> simp [hid]

/-- Witness for `C2_terminal_timestamp_behavior` at the concrete store
`c2db`. -/
theorem C2_terminal_timestamp_behavior_witness :
    update_job_status c2db 1 "finished" none 9 = .ok c2db' ∧
    c2db'.jobs = c2db.jobs.map (jobStatusUpdateRow 1 "finished" none 9) :=
  ⟨rfl, (C2_terminal_timestamp_behavior c2db 1 "finished" none 9 c2db' rfl).1⟩

/-! ### Claim C3 — `finished` status and output locator are committed in two
separate transactions -/

def c3batch : BatchRow :=
  { id := 1, jobId := 1, batchIndex := 0, inputPath := "/in.json", outputPath := none,
    status := "running", startedAt := some 0, finishedAt := none, errorMsg := none }

def c3db : DB := { jobs := [], batches := [c3batch], nextJobId := 1, nextBatchId := 2 }

def c3dbMid : DB := (update_batch_status c3db 1 "finished" none 4).toOption.getD c3db

/-- C3 counterexample: the worker success path first commits
`update_batch_status(batch, "finished")` and only then runs
`save_batch_output` as a second transaction; after the first commit the store
durably holds the batch in status `finished` with `output_path` still NULL,
refuting "recorded in one and the same transaction / no such store state". -/
theorem C3_cex_finished_committed_without_locator :
    update_batch_status c3db 1 "finished" none 4 = .ok c3dbMid ∧
    c3dbMid.batches.map (fun b => (b.status, b.outputPath)) = [("finished", none)] ∧
    (save_batch_output c3dbMid 1 "/out.xlsx").map
        (fun d => d.batches.map (fun b => (b.status, b.outputPath)))
      = .ok [("finished", some "/out.xlsx")] :=
  ⟨rfl, rfl, rfl⟩

/-- C3 (amended): `update_batch_status(_, "finished")` commits the status
transition in its own transaction and never writes `output_path`; the
locator is recorded only by the separate `save_batch_output` transaction the
worker issues afterwards, so a store state exists in which a batch is
`finished` with no output locator. -/
theorem C3_finished_commit_precedes_locator (db : DB) (bid : Int)
    (em : Option String) (now : Nat) (db' : DB)
    (hok : update_batch_status db bid "finished" em now = .ok db') :
    db'.batches = db.batches.map (batchStatusUpdateRow bid "finished" em now) ∧
    ∀ b : BatchRow,
      (batchStatusUpdateRow bid "finished" em now b).outputPath = b.outputPath ∧
      (b.id = bid → (batchStatusUpdateRow bid "finished" em now b).status = "finished") := by
  unfold update_batch_status at hok
  constructor
  · split at hok
    · exact Except.noConfusion hok
    · split at hok
      · exact Except.noConfusion hok
      · rw [← Except.ok.inj hok]
  · intro b
    constructor
    · unfold batchStatusUpdateRow
      by_cases hid : b.id == bid <;> simp [hid]
    · intro hid
      unfold batchStatusUpdateRow
      simp [hid]

/-- Witness for `C3_finished_commit_precedes_locator` at the concrete store
`c3db`. -/
theorem C3_finished_commit_precedes_locator_witness :
    update_batch_status c3db 1 "finished" none 4 = .ok c3dbMid ∧
    c3dbMid.batches = c3db.batches.map (batchStatusUpdateRow 1 "finished" none 4) :=
  ⟨rfl, (C3_finished_commit_precedes_locator c3db 1 none 4 c3dbMid rfl).1⟩

/-! ### Claim C8 — `create_job` validation -/

def emptyDB : DB := { jobs := [], batches := [], nextJobId := 1, nextBatchId := 1 }

def c8res : DB × Int :=
  (create_job emptyDB (.pydict [("query", .pystr "q")]) (.pystr "") 3).toOption.getD
    (emptyDB, 0)

/-- C8 counterexample: the owner `""` is not a non-empty identifier string,
yet `create_job` accepts it — the check `owner_email and not
isinstance(owner_email, str)` is skipped for a falsy owner — refuting "fails
with InvalidArgument whenever the owner is not a non-empty identifier
string". -/
theorem C8_cex_empty_owner_accepted :
    PyVal.truthy (.pystr "") = false ∧
    create_job emptyDB (.pydict [("query", .pystr "q")]) (.pystr "") 3 = .ok c8res :=
  ⟨rfl, rfl⟩

/-- C8 (amended): `create_job` fails exactly when the input is not a dict or
the owner is a truthy non-string — a `None` or empty-string owner is
accepted — and every accepted call inserts a job with status `queued` and
unset `started_at`/`finished_at`. -/
theorem C8_create_job_validation (db : DB) (input owner : PyVal) (now : Nat) :
    ((create_job db input owner now).toOption.isSome = true ↔
      (input.isDict = true ∧ (owner.truthy = true → owner.isStr = true))) ∧
    ∀ db' jid, create_job db input owner now = .ok (db', jid) →
      ∃ j, j ∈ db'.jobs ∧ j.id = jid ∧ j.status = "queued" ∧
        j.startedAt = none ∧ j.finishedAt = none := by
  constructor
  · unfold create_job
    rcases hd : input.isDict <;> rcases ht : owner.truthy <;> rcases hs : owner.isStr <;>
      simp [hd, ht, hs, Except.toOption]
  · intro db' jid h
    unfold create_job at h
    split at h
    · exact Except.noConfusion h
    · split at h
      · exact Except.noConfusion h
      · obtain ⟨hdb, hji⟩ := Prod.mk.inj (Except.ok.inj h)
        subst hdb
        subst hji
        exact ⟨_, List.mem_append_right _ (List.mem_singleton_self _), rfl, rfl, rfl, rfl⟩

/-- Witness for `C8_create_job_validation`: a `None` owner is accepted and
the created job is queued with unset timestamps. -/
theorem C8_create_job_validation_witness :
    ∃ j, j ∈ c8res.1.jobs ∧ j.id = c8res.2 ∧ j.status = "queued" ∧
      j.startedAt = none ∧ j.finishedAt = none :=
  (C8_create_job_validation emptyDB (.pydict [("query", .pystr "q")]) (.pystr "") 3).2
    c8res.1 c8res.2 rfl

/-! ### Claim C9 — deterministic contiguous chunking -/

lemma take_add_split {α : Type} : ∀ (m n : Nat) (l : List α),
    l.take (m + n) = l.take m ++ (l.drop m).take n
  | 0, _, _ => by simp
  | _ + 1, _, [] => by simp
  | m + 1, n, a :: l => by
      simp only [Nat.succ_add, List.take_succ_cons, List.drop_succ_cons, List.cons_append]
      rw [take_add_split m n l]

lemma ceil_div_mul_ge (n B : Nat) (hB : 0 < B) : n ≤ (n + B - 1) / B * B := by
  have hdm := Nat.div_add_mod (n + B - 1) B
  have hm : (n + B - 1) % B < B := Nat.mod_lt _ hB
  rw [Nat.mul_comm]
  generalize hq : (n + B - 1) / B = q at hdm ⊢
  generalize hr : (n + B - 1) % B = r at hdm hm
  generalize hm2 : B * q = m at hdm ⊢
  omega

lemma ceil_div_mul_lt (n B i : Nat) (hB : 0 < B) (hi : i + 1 < (n + B - 1) / B) :
    B * (i + 1) < n := by
  have hdm := Nat.div_add_mod (n + B - 1) B
  have hm : (n + B - 1) % B < B := Nat.mod_lt _ hB
  generalize hq : (n + B - 1) / B = q at hdm hi
  have hsplit : B * q = B * (i + 1) + B * (q - (i + 1)) := by
    rw [← Nat.mul_add, Nat.add_sub_cancel' (Nat.le_of_lt hi)]
  have hge : B ≤ B * (q - (i + 1)) := by
    have h1 : 1 ≤ q - (i + 1) := by omega
    calc B = B * 1 := by rw [Nat.mul_one]
    _ ≤ B * (q - (i + 1)) := Nat.mul_le_mul_left B h1
  generalize B * (i + 1) = m1 at hsplit ⊢
  generalize B * (q - (i + 1)) = m2 at hsplit hge
  generalize hr : (n + B - 1) % B = r at hdm hm
  generalize B * q = mq at hdm hsplit
  omega

lemma batchSlices_length (rows : List String) (B : Nat) :
    (batchSlices rows B).length = (rows.length + B - 1) / B := by
  simp [batchSlices, sliceStarts]

lemma flatten_slices (B : Nat) : ∀ (k : Nat) (rows : List String),
    ((List.range' 0 k B).map (fun i => (rows.drop i).take B)).flatten = rows.take (k * B)
  | 0, rows => by simp
  | k + 1, rows => by
      rw [List.range'_succ]
      simp only [Nat.zero_add]
      have hshift : (List.range' 0 k B).map (fun i => B + i) = List.range' B k B := by
        rw [List.map_add_range', Nat.add_zero]
      rw [← hshift, List.map_cons, List.map_map, List.flatten_cons]
      have hcomp : ((fun i => (rows.drop i).take B) ∘ fun i => B + i)
          = fun i => ((rows.drop B).drop i).take B := by
        funext i
        simp [Function.comp, List.drop_drop]
      rw [hcomp, flatten_slices B k (rows.drop B), List.drop_zero, Nat.succ_mul,
        Nat.add_comm (k * B) B, take_add_split]

lemma batchSlices_flatten (rows : List String) (B : Nat) (hB : 0 < B) :
    (batchSlices rows B).flatten = rows := by
  unfold batchSlices sliceStarts
  rw [flatten_slices]
  exact List.take_of_length_le (ceil_div_mul_ge rows.length B hB)

lemma batchSlices_getElem (rows : List String) (B i : Nat)
    (h : i < (batchSlices rows B).length) :
    (batchSlices rows B)[i] = (rows.drop (B * i)).take B := by
  unfold batchSlices sliceStarts at h ⊢
  rw [List.getElem_map, List.getElem_range']
  simp

lemma batchSlices_full_size (rows : List String) (B i : Nat) (hB : 0 < B)
    (h : i + 1 < (batchSlices rows B).length) :
    ((batchSlices rows B).getD i []).length = B := by
  have hlen := batchSlices_length rows B
  have hi : i < (batchSlices rows B).length := Nat.lt_of_succ_lt h
  rw [List.getD_eq_getElem?_getD, List.getElem?_eq_getElem hi, Option.getD_some,
    batchSlices_getElem rows B i hi, List.length_take, List.length_drop]
  have hlt : B * (i + 1) < rows.length := by
    apply ceil_div_mul_lt rows.length B i hB
    rw [← hlen]
    exact h
  have hms : B * (i + 1) = B * i + B := Nat.mul_succ B i
  have hle : B ≤ rows.length - B * i := by
    generalize B * (i + 1) = m1 at hlt hms
    generalize B * i = m0 at hms ⊢
    omega
  exact Nat.min_eq_left hle

lemma batchSlices_last_size (rows : List String) (B : Nat) (hB : 0 < B)
    (hne : rows ≠ []) :
    ((batchSlices rows B).getD ((batchSlices rows B).length - 1) []).length
      = rows.length - B * ((batchSlices rows B).length - 1) := by
  have hlen := batchSlices_length rows B
  have hn : 0 < rows.length := List.length_pos.mpr hne
  have hq1 : 1 ≤ (rows.length + B - 1) / B := by
    apply Nat.div_pos ?hle hB
    omega
  have hq : 0 < (batchSlices rows B).length := by
    rw [hlen]
    exact hq1
  have hi : (batchSlices rows B).length - 1 < (batchSlices rows B).length := by omega
  rw [List.getD_eq_getElem?_getD, List.getElem?_eq_getElem hi, Option.getD_some,
    batchSlices_getElem rows B _ hi, List.length_take, List.length_drop, hlen]
  have hub : rows.length ≤ ((rows.length + B - 1) / B) * B :=
    ceil_div_mul_ge rows.length B hB
  have hsplit : ((rows.length + B - 1) / B) * B
      = ((rows.length + B - 1) / B - 1) * B + B := by
    conv_lhs => rw [show (rows.length + B - 1) / B = ((rows.length + B - 1) / B - 1) + 1 by omega]
    rw [Nat.succ_mul]
  rw [Nat.mul_comm B ((rows.length + B - 1) / B - 1)]
  apply Nat.min_eq_right
  generalize hq2 : ((rows.length + B - 1) / B) * B = mq at hub hsplit
  generalize hq3 : ((rows.length + B - 1) / B - 1) * B = mq1 at hsplit ⊢
  omega

lemma batch_csv_ok (fs : FS) (inputPath outputDir : String) (B : Nat) (hB : 0 < B)
    (fd : FileData) (tbl : List String) (hfd : fsLookup fs inputPath = some fd)
    (htbl : fd.table = some tbl) :
    ∃ res, batch_csv fs inputPath outputDir B = .ok res ∧
      res.2.length = (tbl.length + B - 1) / B := by
  have hB0 : (B == 0) = false := by
    simp only [beq_eq_false_iff_ne, ne_eq]
    omega
  unfold batch_csv
  simp only [hB0, Bool.false_eq_true, if_false, hfd, htbl]
  exact ⟨_, rfl, by simp [sliceStarts]⟩

/-- C9: For a tabular input with `n` rows and a positive batch size `B`, the
planner's slicing produces `ceil(n/B)` contiguous batches: every batch but
the last has exactly `B` rows, the last has the remaining `n - B*(N-1)` rows,
their concatenation restores the input in order, slicing is a pure function
of `(rows, B)` (deterministic), and `batch_csv` succeeds on a readable input
and returns exactly `ceil(n/B)` batch files. -/
theorem C9_chunking_contiguous (rows : List String) (B : Nat) (hB : 0 < B) :
    (batchSlices rows B).length = (rows.length + B - 1) / B ∧
    (∀ i, i + 1 < (batchSlices rows B).length →
      ((batchSlices rows B).getD i []).length = B) ∧
    (rows ≠ [] →
      ((batchSlices rows B).getD ((batchSlices rows B).length - 1) []).length
        = rows.length - B * ((batchSlices rows B).length - 1)) ∧
    (batchSlices rows B).flatten = rows ∧
    (∀ rows2 B2, rows2 = rows → B2 = B → batchSlices rows2 B2 = batchSlices rows B) ∧
    ∀ fs inputPath outputDir fd tbl,
      fsLookup fs inputPath = some fd → fd.table = some tbl →
      ∃ res, batch_csv fs inputPath outputDir B = .ok res ∧
        res.2.length = (tbl.length + B - 1) / B :=
  ⟨batchSlices_length rows B,
   fun i h => batchSlices_full_size rows B i hB h,
   batchSlices_last_size rows B hB,
   batchSlices_flatten rows B hB,
   fun _ _ h1 h2 => by rw [h1, h2],
   fun fs ip od fd tbl h1 h2 => batch_csv_ok fs ip od B hB fd tbl h1 h2⟩

/-- Witness for `C9_chunking_contiguous`: 25,000 rows at batch size 10,000
give exactly 3 batches. -/
theorem C9_chunking_contiguous_witness :
    0 < 10000 ∧ (batchSlices (List.replicate 25000 "r") 10000).length = 3 :=
  ⟨by decide, by
    rw [(C9_chunking_contiguous (List.replicate 25000 "r") 10000 (by decide)).1,
      List.length_replicate]⟩

/-! ### Helper lemmas about the store operations and the retry loop -/

@[simp] lemma ok_bind {α β : Type} (a : α) (f : α → Except String β) :
    (Except.ok a >>= f) = f a := rfl

@[simp] lemma error_bind {α β : Type} (e : String) (f : α → Except String β) :
    ((Except.error e : Except String α) >>= f) = Except.error e := rfl

lemma update_batch_status_ok (db : DB) (bid : Int) (s : String) (em : Option String)
    (now : Nat) (hid : 1 ≤ bid) (hs : batchStatusValues.contains s = true) :
    update_batch_status db bid s em now
      = .ok { db with batches := db.batches.map (batchStatusUpdateRow bid s em now) } := by
  unfold update_batch_status
  rw [if_neg (by omega), if_neg (by rw [hs]; decide)]

lemma update_job_status_ok (db : DB) (jid : Int) (s : String) (em : Option String)
    (now : Nat) (hid : 1 ≤ jid) (hs : jobStatusValues.contains s = true) :
    update_job_status db jid s em now
      = .ok { db with jobs := db.jobs.map (jobStatusUpdateRow jid s em now) } := by
  unfold update_job_status
  rw [if_neg (by omega), if_neg (by rw [hs]; decide)]

lemma save_batch_output_ok (db : DB) (bid : Int) (p : String) (hid : 1 ≤ bid)
    (hp : pyStrBlank p = false) :
    save_batch_output db bid p
      = .ok { db with batches := db.batches.map (batchOutputUpdateRow bid p) } := by
  unfold save_batch_output
  rw [if_neg (by omega), if_neg (by rw [hp]; decide)]

lemma save_job_result_ok (db : DB) (jid : Int) (r : JobResult) (hid : 1 ≤ jid) :
    save_job_result db jid r
      = .ok { db with jobs := db.jobs.map (jobResultUpdateRow jid r) } := by
  unfold save_job_result
  rw [if_neg (by omega)]

lemma get_batches_ok (db : DB) (jid : Int) (hid : 1 ≤ jid) :
    get_batches db jid
      = .ok (List.insertionSort byIndex (db.batches.filter (fun b => b.jobId == jid))) := by
  unfold get_batches
  rw [if_neg (by omega)]

lemma get_batch_ok (db : DB) (bid : Int) (hid : 1 ≤ bid) :
    get_batch db bid = .ok (db.batches.find? (fun b => b.id == bid)) := by
  unfold get_batch
  rw [if_neg (by omega)]

lemma batchStatusUpdateRow_id (bid : Int) (s : String) (em : Option String)
    (now : Nat) (b : BatchRow) : (batchStatusUpdateRow bid s em now b).id = b.id := by
  unfold batchStatusUpdateRow
  split
  · split
    · rfl
    · split
      · rfl
      · rfl
  · rfl

lemma batchOutputUpdateRow_id (bid : Int) (p : String) (b : BatchRow) :
    (batchOutputUpdateRow bid p b).id = b.id := by
  unfold batchOutputUpdateRow
  split
  · rfl
  · rfl

lemma numExecCalls_append (a b : List Ev) :
    numExecCalls (a ++ b) = numExecCalls a + numExecCalls b := by
  simp [numExecCalls]

/-! ### Claim C5 — the per-batch retry loop -/

/-- Row-level effect of a failed attempt on the matching row: mark running
at `t1`, then failed with the recorded error at `t2`. -/
lemma batch_mark_failed_composite (rid : Int) (err : Option String) (t1 t2 : Nat)
    (b1 : BatchRow) (hbid : b1.id = rid) :
    batchStatusUpdateRow rid "failed" err t2 (batchStatusUpdateRow rid "running" none t1 b1)
      = { b1 with
          status := "failed", startedAt := some t1, finishedAt := some t2,
          errorMsg := err } := by
  simp [batchStatusUpdateRow, hbid]

/-- Row-level effect of a successful attempt on the matching row: mark
running at `t1`, finished at `t2`, then record the output locator. -/
lemma batch_mark_finished_composite (rid : Int) (outputXlsx : String) (t1 t2 : Nat)
    (b1 : BatchRow) (hbid : b1.id = rid) :
    batchOutputUpdateRow rid outputXlsx
        (batchStatusUpdateRow rid "finished" none t2
          (batchStatusUpdateRow rid "running" none t1 b1))
      = { b1 with
          status := "finished", startedAt := some t1, finishedAt := some t2,
          errorMsg := none, outputPath := some outputXlsx } := by
  simp [batchStatusUpdateRow, batchOutputUpdateRow, hbid]

/-- The worker state after one failed attempt `k`: batch marked running then
failed with the error recorded, the error JSON written, the attempt and the
`10 * k` second backoff sleep logged. -/
def failedAttemptState (row : BatchRow) (outputsDir outputJson : String) (k : Nat)
    (err : String) (st : WState) : WState :=
  let fs1 :=
    if pyEndsWith row.inputPath ".json" then st.fs
    else fsWrite st.fs (batchInputJsonOf outputsDir row.batchIndex) { size := 1, table := none }
  let batches2 :=
    (st.db.batches.map (batchStatusUpdateRow row.id "running" none st.clock)).map
      (batchStatusUpdateRow row.id "failed" (some err) (st.clock + 1))
  { db := { st.db with batches := batches2 },
    fs := fsWrite fs1 outputJson { size := 1, table := none },
    evs := (st.evs ++ [.execCall row.id row.batchIndex k]) ++ [.sleep (10 * k)],
    clock := st.clock + 1 + 1 }

/-- The worker state after a successful attempt `k`: batch marked running
then finished, the output locator saved, both output files written, exactly
one executor call logged and no sleep. -/
def finishedAttemptState (row : BatchRow) (outputsDir outputJson outputXlsx : String)
    (k : Nat) (rws : List String) (st : WState) : WState :=
  let fs1 :=
    if pyEndsWith row.inputPath ".json" then st.fs
    else fsWrite st.fs (batchInputJsonOf outputsDir row.batchIndex) { size := 1, table := none }
  let batches3 :=
    ((st.db.batches.map (batchStatusUpdateRow row.id "running" none st.clock)).map
        (batchStatusUpdateRow row.id "finished" none (st.clock + 1))).map
      (batchOutputUpdateRow row.id outputXlsx)
  { db := { st.db with batches := batches3 },
    fs := fsWrite (fsWrite fs1 outputJson { size := 1, table := none }) outputXlsx
      { size := 1 + rws.length, table := some rws },
    evs := st.evs ++ [.execCall row.id row.batchIndex k],
    clock := st.clock + 1 + 1 }

lemma attemptBatch_failure_step (ex : Executor) (row : BatchRow)
    (outputsDir outputJson outputXlsx : String) (k : Nat) (rest : List Nat)
    (st : WState) (err : String) (hid : 1 ≤ row.id)
    (hex : ex (batchJsonPathOf outputsDir row) k = .failure err) :
    attemptBatch ex row outputsDir outputJson outputXlsx (k :: rest) st
      = attemptBatch ex row outputsDir outputJson outputXlsx rest
          (failedAttemptState row outputsDir outputJson k err st) := by
  rw [attemptBatch, update_batch_status_ok st.db row.id "running" none st.clock hid (by decide),
    ok_bind]
  simp only [run_batch, hex]
  rw [update_batch_status_ok _ row.id "failed" (some err) _ hid (by decide), ok_bind]
  rfl

lemma attemptBatch_success_step (ex : Executor) (row : BatchRow)
    (outputsDir outputJson outputXlsx : String) (k : Nat) (rest : List Nat)
    (st : WState) (rws : List String) (hid : 1 ≤ row.id)
    (hout : pyStrBlank outputXlsx = false)
    (hex : ex (batchJsonPathOf outputsDir row) k = .success rws) :
    attemptBatch ex row outputsDir outputJson outputXlsx (k :: rest) st
      = .ok (finishedAttemptState row outputsDir outputJson outputXlsx k rws st) := by
  rw [attemptBatch, update_batch_status_ok st.db row.id "running" none st.clock hid (by decide),
    ok_bind]
  simp only [run_batch, hex]
  rw [update_batch_status_ok _ row.id "finished" none _ hid (by decide), ok_bind,
    save_batch_output_ok _ row.id outputXlsx hid hout, ok_bind]
  rfl

lemma failedAttemptState_marks (row : BatchRow) (outputsDir outputJson : String)
    (k : Nat) (err : String) (st : WState) :
    ∀ b ∈ (failedAttemptState row outputsDir outputJson k err st).db.batches,
      b.id = row.id → b.status = "failed" ∧ b.errorMsg = some err := by
  intro b hb hbid
  simp only [failedAttemptState, List.map_map, List.mem_map, Function.comp_apply] at hb
  obtain ⟨b1, _, rfl⟩ := hb
  rw [batchStatusUpdateRow_id, batchStatusUpdateRow_id] at hbid
  rw [batch_mark_failed_composite _ _ _ _ _ hbid]
  exact ⟨rfl, rfl⟩

lemma finishedAttemptState_marks (row : BatchRow)
    (outputsDir outputJson outputXlsx : String) (k : Nat) (rws : List String)
    (st : WState) :
    ∀ b ∈ (finishedAttemptState row outputsDir outputJson outputXlsx k rws st).db.batches,
      b.id = row.id → b.status = "finished" ∧ b.outputPath = some outputXlsx := by
  intro b hb hbid
  simp only [finishedAttemptState, List.map_map, List.mem_map, Function.comp_apply] at hb
  obtain ⟨b1, _, rfl⟩ := hb
  rw [batchOutputUpdateRow_id, batchStatusUpdateRow_id, batchStatusUpdateRow_id] at hbid
  rw [batch_mark_finished_composite _ _ _ _ _ hbid]
  exact ⟨rfl, rfl⟩

lemma attemptBatch_execCalls_le (ex : Executor) (row : BatchRow)
    (outputsDir outputJson outputXlsx : String) (hid : 1 ≤ row.id)
    (hout : pyStrBlank outputXlsx = false) :
    ∀ (attempts : List Nat) (st st' : WState),
      attemptBatch ex row outputsDir outputJson outputXlsx attempts st = .ok st' →
      ∃ evs', st'.evs = st.evs ++ evs' ∧ numExecCalls evs' ≤ attempts.length := by
  intro attempts
  induction attempts with
  | nil =>
      intro st st' h
      rw [attemptBatch] at h
      refine ⟨[], ?_, by simp [numExecCalls]⟩
      rw [← Except.ok.inj h]
      simp
  | cons k rest ih =>
      intro st st' h
      cases hex : ex (batchJsonPathOf outputsDir row) k with
      | success rws =>
          rw [attemptBatch_success_step ex row outputsDir outputJson outputXlsx k rest st rws
            hid hout hex] at h
          refine ⟨[.execCall row.id row.batchIndex k], ?_, by simp [numExecCalls]⟩
          rw [← Except.ok.inj h]
          rfl
      | failure err =>
          rw [attemptBatch_failure_step ex row outputsDir outputJson outputXlsx k rest st err
            hid hex] at h
          obtain ⟨evs', hevs, hle⟩ := ih _ _ h
          refine ⟨[Ev.execCall row.id row.batchIndex k, Ev.sleep (10 * k)] ++ evs', ?_, ?_⟩
          · rw [hevs]
            simp [failedAttemptState, List.append_assoc]
          · rw [numExecCalls_append]
            have h1 : numExecCalls [Ev.execCall row.id row.batchIndex k, Ev.sleep (10 * k)] = 1 := by
              simp [numExecCalls]
            rw [h1]
            simp only [List.length_cons]
            omega

/-- C5: the retry loop honors `MAX_RETRIES = 3` exactly: the attempt list is
`[1, 2, 3]`, at most `MAX_RETRIES` executor calls are made per batch; after a
failed attempt `k` the batch is marked `failed` with the error message
recorded and the loop sleeps `10 * k` seconds before the next attempt; a
successful attempt `k` immediately marks the batch `finished`, saves the
output locator and stops (exactly one call logged for it, no sleep); and an
executor failing twice then succeeding on the 3rd attempt leaves the batch
`finished` after exactly the trace fail–sleep 10–fail–sleep 20–success. -/
theorem C5_retry_bounded_backoff (ex : Executor) (row : BatchRow)
    (outputsDir outputJson outputXlsx : String)
    (hid : 1 ≤ row.id) (hout : pyStrBlank outputXlsx = false) :
    List.range' 1 MAX_RETRIES = [1, 2, 3] ∧
    (∀ st st',
      attemptBatch ex row outputsDir outputJson outputXlsx (List.range' 1 MAX_RETRIES) st
        = .ok st' →
      ∃ evs', st'.evs = st.evs ++ evs' ∧ numExecCalls evs' ≤ MAX_RETRIES) ∧
    (∀ k rest st err, ex (batchJsonPathOf outputsDir row) k = .failure err →
      attemptBatch ex row outputsDir outputJson outputXlsx (k :: rest) st
        = attemptBatch ex row outputsDir outputJson outputXlsx rest
            (failedAttemptState row outputsDir outputJson k err st) ∧
      (failedAttemptState row outputsDir outputJson k err st).evs
        = st.evs ++ [.execCall row.id row.batchIndex k, .sleep (10 * k)] ∧
      ∀ b ∈ (failedAttemptState row outputsDir outputJson k err st).db.batches,
        b.id = row.id → b.status = "failed" ∧ b.errorMsg = some err) ∧
    (∀ k rest st rws, ex (batchJsonPathOf outputsDir row) k = .success rws →
      attemptBatch ex row outputsDir outputJson outputXlsx (k :: rest) st
        = .ok (finishedAttemptState row outputsDir outputJson outputXlsx k rws st) ∧
      (finishedAttemptState row outputsDir outputJson outputXlsx k rws st).evs
        = st.evs ++ [.execCall row.id row.batchIndex k] ∧
      ∀ b ∈ (finishedAttemptState row outputsDir outputJson outputXlsx k rws st).db.batches,
        b.id = row.id → b.status = "finished" ∧ b.outputPath = some outputXlsx) ∧
    ∀ st e1 e2 rws,
      ex (batchJsonPathOf outputsDir row) 1 = .failure e1 →
      ex (batchJsonPathOf outputsDir row) 2 = .failure e2 →
      ex (batchJsonPathOf outputsDir row) 3 = .success rws →
      ∃ stFin,
        attemptBatch ex row outputsDir outputJson outputXlsx (List.range' 1 MAX_RETRIES) st
          = .ok stFin ∧
        stFin.evs = st.evs ++ [.execCall row.id row.batchIndex 1, .sleep 10,
          .execCall row.id row.batchIndex 2, .sleep 20,
          .execCall row.id row.batchIndex 3] ∧
        ∀ b ∈ stFin.db.batches, b.id = row.id → b.status = "finished" := by
  refine ⟨rfl, ?_, ?_, ?_, ?_⟩
  · intro st st' h
    obtain ⟨evs', h1, h2⟩ :=
      attemptBatch_execCalls_le ex row outputsDir outputJson outputXlsx hid hout _ st st' h
    exact ⟨evs', h1, by simpa using h2⟩
  · intro k rest st err hex
    exact ⟨attemptBatch_failure_step ex row outputsDir outputJson outputXlsx k rest st err
        hid hex,
      by simp [failedAttemptState],
      failedAttemptState_marks row outputsDir outputJson k err st⟩
  · intro k rest st rws hex
    exact ⟨attemptBatch_success_step ex row outputsDir outputJson outputXlsx k rest st rws
        hid hout hex,
      by simp [finishedAttemptState],
      finishedAttemptState_marks row outputsDir outputJson outputXlsx k rws st⟩
  · intro st e1 e2 rws hex1 hex2 hex3
    have hlist : List.range' 1 MAX_RETRIES = [1, 2, 3] := rfl
    rw [hlist,
      attemptBatch_failure_step ex row outputsDir outputJson outputXlsx 1 [2, 3] st e1 hid hex1,
      attemptBatch_failure_step ex row outputsDir outputJson outputXlsx 2 [3] _ e2 hid hex2,
      attemptBatch_success_step ex row outputsDir outputJson outputXlsx 3 [] _ rws hid hout hex3]
    refine ⟨_, rfl, ?_, ?_⟩
    · simp [finishedAttemptState, failedAttemptState]
    · intro b hb hbid
      exact (finishedAttemptState_marks row outputsDir outputJson outputXlsx 3 rws _ b hb hbid).1

def c5row : BatchRow :=
  { id := 1, jobId := 1, batchIndex := 0, inputPath := "/b0.json", outputPath := none,
    status := "pending", startedAt := none, finishedAt := none, errorMsg := none }

def c5ex : Executor := fun _ k => if k ≤ 2 then .failure "boom" else .success ["r1"]

def c5st : WState :=
  { db := { jobs := [], batches := [c5row], nextJobId := 1, nextBatchId := 2 },
    fs := [], evs := [], clock := 0 }

/-- Witness for `C5_retry_bounded_backoff`: an executor that fails twice and
succeeds on the third attempt leaves the batch finished after the exact
trace fail–sleep 10–fail–sleep 20–success. -/
theorem C5_retry_bounded_backoff_witness :
    1 ≤ c5row.id ∧ pyStrBlank "/out0.xlsx" = false ∧
    ∃ stFin,
      attemptBatch c5ex c5row "/outdir" "/o0.json" "/out0.xlsx" (List.range' 1 MAX_RETRIES) c5st
        = .ok stFin ∧
      stFin.evs = c5st.evs ++ [.execCall c5row.id c5row.batchIndex 1, .sleep 10,
        .execCall c5row.id c5row.batchIndex 2, .sleep 20,
        .execCall c5row.id c5row.batchIndex 3] ∧
      ∀ b ∈ stFin.db.batches, b.id = c5row.id → b.status = "finished" :=
  ⟨by decide, by decide,
    (C5_retry_bounded_backoff c5ex c5row "/outdir" "/o0.json" "/out0.xlsx" (by decide)
      (by decide)).2.2.2.2 c5st "boom" "boom" ["r1"] rfl rfl rfl⟩

/-! ### Machinery for the whole-`process_job` claims (C1, C4, C6) -/

/-- The identity-shaping fields of a batch row, unchanged by every per-row
update the batch loop performs. -/
def skel (b : BatchRow) : Int × Int × Int := (b.id, b.jobId, b.batchIndex)

lemma batchStatusUpdateRow_skel (bid : Int) (s : String) (em : Option String)
    (now : Nat) (b : BatchRow) : skel (batchStatusUpdateRow bid s em now b) = skel b := by
  unfold skel batchStatusUpdateRow
  split
  · split
    · rfl
    · split
      · rfl
      · rfl
  · rfl

lemma batchOutputUpdateRow_skel (bid : Int) (p : String) (b : BatchRow) :
    skel (batchOutputUpdateRow bid p b) = skel b := by
  unfold skel batchOutputUpdateRow
  split
  · rfl
  · rfl

lemma map_skel_statusUpdate (bid : Int) (s : String) (em : Option String) (now : Nat)
    (l : List BatchRow) :
    (l.map (batchStatusUpdateRow bid s em now)).map skel = l.map skel := by
  rw [List.map_map]
  apply List.map_congr_left
  intro b _
  exact batchStatusUpdateRow_skel bid s em now b

lemma map_skel_outputUpdate (bid : Int) (p : String) (l : List BatchRow) :
    (l.map (batchOutputUpdateRow bid p)).map skel = l.map skel := by
  rw [List.map_map]
  apply List.map_congr_left
  intro b _
  exact batchOutputUpdateRow_skel bid p b

lemma jobStatusUpdateRow_id (jid : Int) (s : String) (em : Option String) (now : Nat)
    (j : JobRow) : (jobStatusUpdateRow jid s em now j).id = j.id := by
  unfold jobStatusUpdateRow
  split
  · split
    · rfl
    · split
      · rfl
      · rfl
  · rfl

lemma jobResultUpdateRow_id (jid : Int) (r : JobResult) (j : JobRow) :
    (jobResultUpdateRow jid r j).id = j.id := by
  unfold jobResultUpdateRow
  split
  · rfl
  · rfl

lemma jobResultUpdateRow_status (jid : Int) (r : JobResult) (j : JobRow) :
    (jobResultUpdateRow jid r j).status = j.status := by
  unfold jobResultUpdateRow
  split
  · rfl
  · rfl

lemma jobStatusUpdateRow_finished_self (jid : Int) (em : Option String) (now : Nat)
    (j : JobRow) (hid : j.id = jid) :
    (jobStatusUpdateRow jid "finished" em now j).status = "finished" := by
  unfold jobStatusUpdateRow
  rw [if_pos (beq_iff_eq.mpr hid), if_neg (by decide), if_pos (by decide)]

lemma jobResultUpdateRow_self (jid : Int) (r : JobResult) (j : JobRow)
    (hid : j.id = jid) : (jobResultUpdateRow jid r j).resultJson = some r := by
  unfold jobResultUpdateRow
  rw [if_pos (beq_iff_eq.mpr hid)]

lemma fsWrite_mono (fs : FS) (q : String) (d : FileData) (p : String)
    (h : (fsLookup fs p).isSome = true) :
    (fsLookup (fsWrite fs q d) p).isSome = true := by
  unfold fsLookup at h
  unfold fsLookup fsWrite
  cases h2 : (q == p)
  · simpa [List.find?_cons, h2] using h
  · simp [List.find?_cons, h2]

lemma fsLookup_fsWrite_self (fs : FS) (p : String) (d : FileData) :
    fsLookup (fsWrite fs p d) p = some d := by
  unfold fsLookup fsWrite
  simp [List.find?_cons]

/-- Events appended after the merge step (webhook notification). -/
def webhookEvs (job : JobDesc) : List Ev :=
  match job.webhook with
  | some url => [.webhookPost url]
  | none => []

lemma execCall_not_mem_webhookEvs (job : JobDesc) (bid idx : Int) (a : Nat) :
    Ev.execCall bid idx a ∉ webhookEvs job := by
  unfold webhookEvs
  cases job.webhook
  · simp
  · simp

/-- The rows inserted by the registration loop, starting at batch index
`idx` with AUTOINCREMENT counter `nid`. -/
def plannedRows (jobId : Int) : Nat → Int → List String → List BatchRow
  | _, _, [] => []
  | idx, nid, f :: rest =>
      { id := nid, jobId := jobId, batchIndex := Int.ofNat idx, inputPath := f,
        outputPath := none, status := "pending", startedAt := none, finishedAt := none,
        errorMsg := none } :: plannedRows jobId (idx + 1) (nid + 1) rest

lemma plannedRows_length (jobId : Int) :
    ∀ (files : List String) (idx : Nat) (nid : Int),
      (plannedRows jobId idx nid files).length = files.length
  | [], _, _ => rfl
  | _ :: rest, idx, nid => by
      rw [plannedRows, List.length_cons, List.length_cons,
        plannedRows_length jobId rest (idx + 1) (nid + 1)]

lemma plannedRows_jobId (jobId : Int) :
    ∀ (files : List String) (idx : Nat) (nid : Int),
      ∀ b ∈ plannedRows jobId idx nid files, b.jobId = jobId := by
  intro files
  induction files with
  | nil => intro idx nid b hb; cases hb
  | cons f rest ih =>
      intro idx nid b hb
      rw [plannedRows, List.mem_cons] at hb
      rcases hb with rfl | hb
      · rfl
      · exact ih (idx + 1) (nid + 1) b hb

lemma plannedRows_id_ge (jobId : Int) :
    ∀ (files : List String) (idx : Nat) (nid : Int),
      ∀ b ∈ plannedRows jobId idx nid files, nid ≤ b.id := by
  intro files
  induction files with
  | nil => intro idx nid b hb; cases hb
  | cons f rest ih =>
      intro idx nid b hb
      rw [plannedRows, List.mem_cons] at hb
      rcases hb with rfl | hb
      · exact le_refl _
      · have := ih (idx + 1) (nid + 1) b hb
        omega

lemma plannedRows_status (jobId : Int) :
    ∀ (files : List String) (idx : Nat) (nid : Int),
      ∀ b ∈ plannedRows jobId idx nid files, b.status = "pending" := by
  intro files
  induction files with
  | nil => intro idx nid b hb; cases hb
  | cons f rest ih =>
      intro idx nid b hb
      rw [plannedRows, List.mem_cons] at hb
      rcases hb with rfl | hb
      · rfl
      · exact ih (idx + 1) (nid + 1) b hb

lemma plannedRows_batchIndex (jobId : Int) :
    ∀ (files : List String) (idx : Nat) (nid : Int),
      (plannedRows jobId idx nid files).map BatchRow.batchIndex
        = (List.range' idx files.length).map Int.ofNat
  | [], _, _ => rfl
  | f :: rest, idx, nid => by
      rw [plannedRows, List.map_cons, List.length_cons, List.range'_succ, List.map_cons,
        plannedRows_batchIndex jobId rest (idx + 1) (nid + 1)]

/-- The row INSERTed by `create_batch`. -/
def createdBatchRow (db : DB) (jobId bidx : Int) (p : String) : BatchRow :=
  { id := db.nextBatchId, jobId := jobId, batchIndex := bidx, inputPath := p,
    outputPath := none, status := "pending", startedAt := none, finishedAt := none,
    errorMsg := none }

lemma create_batch_ok_inv (db : DB) (jobId bidx : Int) (p : String)
    (res : DB × Int) (h : create_batch db jobId bidx p = .ok res) :
    res = ({ db with
             batches := db.batches ++ [createdBatchRow db jobId bidx p],
             nextBatchId := db.nextBatchId + 1 }, db.nextBatchId) := by
  unfold create_batch at h
  split at h
  · exact Except.noConfusion h
  · split at h
    · exact Except.noConfusion h
    · split at h
      · exact Except.noConfusion h
      · exact (Except.ok.inj h).symm

lemma registerBatchesFrom_ok_inv (jobId : Int) :
    ∀ (files : List String) (idx : Nat) (db db' : DB),
      registerBatchesFrom jobId idx files db = .ok db' →
      db'.jobs = db.jobs ∧
      db'.batches = db.batches ++ plannedRows jobId idx db.nextBatchId files ∧
      db'.nextJobId = db.nextJobId := by
  intro files
  induction files with
  | nil =>
      intro idx db db' h
      rw [registerBatchesFrom] at h
      rw [← Except.ok.inj h]
      exact ⟨rfl, by rw [plannedRows, List.append_nil], rfl⟩
  | cons f rest ih =>
      intro idx db db' h
      rw [registerBatchesFrom] at h
      cases hcb : create_batch db jobId (Int.ofNat idx) f with
      | error e => rw [hcb] at h; exact Except.noConfusion h
      | ok res =>
          rw [hcb, ok_bind] at h
          have hres := create_batch_ok_inv db jobId (Int.ofNat idx) f res hcb
          rw [hres] at h
          obtain ⟨h1, h2, h3⟩ := ih (idx + 1) _ db' h
          refine ⟨h1, ?_, h3⟩
          rw [h2, plannedRows]
          simp [createdBatchRow, List.append_assoc]

lemma bind_ok_inv {α β : Type} (e : Except String α) (f : α → Except String β) (b : β)
    (h : (e >>= f) = .ok b) : ∃ a, e = .ok a ∧ f a = .ok b := by
  cases e
  · rw [error_bind] at h
    exact Except.noConfusion h
  · rw [ok_bind] at h
    exact ⟨_, rfl, h⟩

lemma update_batch_status_ok_inv (db : DB) (bid : Int) (s : String) (em : Option String)
    (now : Nat) (db' : DB) (h : update_batch_status db bid s em now = .ok db') :
    db' = { db with batches := db.batches.map (batchStatusUpdateRow bid s em now) } := by
  unfold update_batch_status at h
  split at h
  · exact Except.noConfusion h
  · split at h
    · exact Except.noConfusion h
    · exact (Except.ok.inj h).symm

lemma save_batch_output_ok_inv (db : DB) (bid : Int) (p : String) (db' : DB)
    (h : save_batch_output db bid p = .ok db') :
    db' = { db with batches := db.batches.map (batchOutputUpdateRow bid p) } := by
  unfold save_batch_output at h
  split at h
  · exact Except.noConfusion h
  · split at h
    · exact Except.noConfusion h
    · exact (Except.ok.inj h).symm

lemma get_batches_ok_inv (db : DB) (jid : Int) (rows : List BatchRow)
    (h : get_batches db jid = .ok rows) :
    rows = List.insertionSort byIndex (db.batches.filter (fun b => b.jobId == jid)) := by
  unfold get_batches at h
  split at h
  · exact Except.noConfusion h
  · exact (Except.ok.inj h).symm

lemma attemptBatch_ok_inv (ex : Executor) (row : BatchRow)
    (outputsDir outputJson outputXlsx : String) :
    ∀ (attempts : List Nat) (st st' : WState),
      attemptBatch ex row outputsDir outputJson outputXlsx attempts st = .ok st' →
      st'.db.jobs = st.db.jobs ∧
      st'.db.batches.map skel = st.db.batches.map skel ∧
      st'.db.nextJobId = st.db.nextJobId ∧
      st'.db.nextBatchId = st.db.nextBatchId ∧
      (∀ p, (fsLookup st.fs p).isSome = true → (fsLookup st'.fs p).isSome = true) ∧
      ∃ evs', st'.evs = st.evs ++ evs' ∧
        (∀ bid idx a, Ev.execCall bid idx a ∈ evs' → bid = row.id) ∧
        ∀ k rest, attempts = k :: rest → Ev.execCall row.id row.batchIndex k ∈ evs' := by
  intro attempts
  induction attempts with
  | nil =>
      intro st st' h
      rw [attemptBatch] at h
      rw [← Except.ok.inj h]
      refine ⟨rfl, rfl, rfl, rfl, fun p hp => hp, [], by simp, ?_, ?_⟩
      · intro bid idx a ha
        exact absurd ha (List.not_mem_nil _)
      · intro k rest heq
        exact List.noConfusion heq
  | cons k rest ih =>
      intro st st' h
      rw [attemptBatch] at h
      obtain ⟨db1, hup1, h⟩ := bind_ok_inv _ _ _ h
      have hdb1 := update_batch_status_ok_inv _ _ _ _ _ _ hup1
      subst hdb1
      cases hex : ex (batchJsonPathOf outputsDir row) k with
      | success rws =>
          simp only [run_batch, hex, eq_self_iff_true, if_true] at h
          obtain ⟨db2, hup2, h⟩ := bind_ok_inv _ _ _ h
          have hdb2 := update_batch_status_ok_inv _ _ _ _ _ _ hup2
          subst hdb2
          obtain ⟨db3, hsv, h⟩ := bind_ok_inv _ _ _ h
          have hdb3 := save_batch_output_ok_inv _ _ _ _ hsv
          subst hdb3
          have hst' := Except.ok.inj h
          subst hst'
          refine ⟨rfl, ?_, rfl, rfl, ?_, [Ev.execCall row.id row.batchIndex k], by simp, ?_, ?_⟩
          · rw [map_skel_outputUpdate, map_skel_statusUpdate, map_skel_statusUpdate]
          · intro p hp
            apply fsWrite_mono
            apply fsWrite_mono
            split
            · exact hp
            · exact fsWrite_mono _ _ _ _ hp
          · intro bid idx a ha
            rw [List.mem_singleton] at ha
            injection ha
          · intro k' rest' heq
            injection heq with hk _
            rw [← hk]
            exact List.mem_singleton_self _
      | failure err =>
          simp only [run_batch, hex, Bool.false_eq_true, if_false] at h
          obtain ⟨db2, hup2, h⟩ := bind_ok_inv _ _ _ h
          have hdb2 := update_batch_status_ok_inv _ _ _ _ _ _ hup2
          subst hdb2
          obtain ⟨hj, hsk, hnj, hnb, hfs, evs'', hevs, hcond, _⟩ := ih _ _ h
          refine ⟨?_, ?_, ?_, ?_, ?_,
            [Ev.execCall row.id row.batchIndex k, Ev.sleep (10 * k)] ++ evs'', ?_, ?_, ?_⟩
          · rw [hj]
          · rw [hsk, map_skel_statusUpdate, map_skel_statusUpdate]
          · rw [hnj]
          · rw [hnb]
          · intro p hp
            apply hfs
            apply fsWrite_mono
            split
            · exact hp
            · exact fsWrite_mono _ _ _ _ hp
          · rw [hevs]
            simp [List.append_assoc]
          · intro bid idx a ha
            rw [List.mem_append] at ha
            rcases ha with ha | ha
            · rw [List.mem_cons, List.mem_singleton] at ha
              rcases ha with ha | ha
              · injection ha
              · exact Ev.noConfusion ha
            · exact hcond bid idx a ha
          · intro k' rest' heq
            injection heq with hk _
            rw [← hk]
            exact List.mem_append_left _ (List.mem_cons_self _ _)

lemma processBatchRow_ok_inv (ex : Executor) (outputsDir : String) (row : BatchRow)
    (st st' : WState) (h : processBatchRow ex outputsDir row st = .ok st') :
    st'.db.jobs = st.db.jobs ∧
    st'.db.batches.map skel = st.db.batches.map skel ∧
    st'.db.nextJobId = st.db.nextJobId ∧
    st'.db.nextBatchId = st.db.nextBatchId ∧
    (∀ p, (fsLookup st.fs p).isSome = true → (fsLookup st'.fs p).isSome = true) ∧
    ∃ evs', st'.evs = st.evs ++ evs' ∧
      (∀ bid idx a, Ev.execCall bid idx a ∈ evs' → bid = row.id) ∧
      ((row.status = "finished" ∧
          (fsLookup st.fs (outXlsxOf outputsDir row.batchIndex)).isSome = true) →
        evs' = []) ∧
      (¬(row.status = "finished" ∧
          (fsLookup st.fs (outXlsxOf outputsDir row.batchIndex)).isSome = true) →
        Ev.execCall row.id row.batchIndex 1 ∈ evs') := by
  unfold processBatchRow at h
  split at h
  · rename_i hc
    rw [← Except.ok.inj h]
    refine ⟨rfl, rfl, rfl, rfl, fun p hp => hp, [], by simp, ?_, ?_, ?_⟩
    · intro bid idx a ha
      exact absurd ha (List.not_mem_nil _)
    · intro _
      rfl
    · intro hnc
      rw [Bool.and_eq_true, beq_iff_eq] at hc
      exact absurd ⟨hc.1, hc.2⟩ hnc
  · rename_i hc
    obtain ⟨st1, hab, h⟩ := bind_ok_inv _ _ _ h
    obtain ⟨ropt, hgb, h⟩ := bind_ok_inv _ _ _ h
    cases ropt with
    | none => exact Except.noConfusion h
    | some r =>
        have hst' := Except.ok.inj h
        subst hst'
        obtain ⟨hj, hsk, hnj, hnb, hfs, evs', hevs, hcond, hhead⟩ :=
          attemptBatch_ok_inv ex row outputsDir _ _ _ _ _ hab
        refine ⟨hj, hsk, hnj, hnb, hfs, evs', hevs, hcond, ?_, ?_⟩
        · intro hcc
          rw [Bool.and_eq_true, beq_iff_eq] at hc
          exact absurd hcc hc
        · intro _
          exact hhead 1 [2, 3] rfl

lemma processBatches_ok_inv (ex : Executor) (outputsDir : String) :
    ∀ (rows : List BatchRow) (st st' : WState),
      processBatches ex outputsDir rows st = .ok st' →
      st'.db.jobs = st.db.jobs ∧
      st'.db.batches.map skel = st.db.batches.map skel ∧
      st'.db.nextJobId = st.db.nextJobId ∧
      st'.db.nextBatchId = st.db.nextBatchId ∧
      (∀ p, (fsLookup st.fs p).isSome = true → (fsLookup st'.fs p).isSome = true) ∧
      ∃ evs', st'.evs = st.evs ++ evs' ∧
        (∀ bid idx a, Ev.execCall bid idx a ∈ evs' →
          ∃ row ∈ rows, row.id = bid ∧
            ¬(row.status = "finished" ∧
              (fsLookup st.fs (outXlsxOf outputsDir row.batchIndex)).isSome = true)) ∧
        ∀ row ∈ rows, row.status ≠ "finished" →
          ∃ a, Ev.execCall row.id row.batchIndex a ∈ evs' := by
  intro rows
  induction rows with
  | nil =>
      intro st st' h
      rw [processBatches] at h
      rw [← Except.ok.inj h]
      refine ⟨rfl, rfl, rfl, rfl, fun p hp => hp, [], by simp, ?_, ?_⟩
      · intro bid idx a ha
        exact absurd ha (List.not_mem_nil _)
      · intro r hr
        exact absurd hr (List.not_mem_nil _)
  | cons row rest ih =>
      intro st st' h
      rw [processBatches] at h
      obtain ⟨st1, hpr, h⟩ := bind_ok_inv _ _ _ h
      obtain ⟨hj1, hsk1, hnj1, hnb1, hfs1, evs1, hevs1, hcond1, hskip1, hatt1⟩ :=
        processBatchRow_ok_inv ex outputsDir row st st1 hpr
      obtain ⟨hj2, hsk2, hnj2, hnb2, hfs2, evs2, hevs2, hcond2, hatt2⟩ := ih st1 st' h
      refine ⟨by rw [hj2, hj1], by rw [hsk2, hsk1], by rw [hnj2, hnj1], by rw [hnb2, hnb1],
        fun p hp => hfs2 p (hfs1 p hp), evs1 ++ evs2, ?_, ?_, ?_⟩
      · rw [hevs2, hevs1, List.append_assoc]
      · intro bid idx a ha
        rw [List.mem_append] at ha
        rcases ha with ha | ha
        · refine ⟨row, List.mem_cons_self _ _, (hcond1 bid idx a ha).symm, ?_⟩
          intro hcc
          have hnil : evs1 = [] := hskip1 hcc
          rw [hnil] at ha
          exact absurd ha (List.not_mem_nil _)
        · obtain ⟨r, hr, hrid, hrnc⟩ := hcond2 bid idx a ha
          refine ⟨r, List.mem_cons_of_mem _ hr, hrid, ?_⟩
          intro hcc
          exact hrnc ⟨hcc.1, hfs1 _ hcc.2⟩
      · intro r hr hrs
        rw [List.mem_cons] at hr
        rcases hr with rfl | hr
        · refine ⟨1, List.mem_append_left _ (hatt1 ?_)⟩
          intro hcc
          exact hrs hcc.1
        · obtain ⟨a, ha⟩ := hatt2 r hr hrs
          exact ⟨a, List.mem_append_right _ ha⟩

lemma update_job_status_ok_inv (db : DB) (jid : Int) (s : String) (em : Option String)
    (now : Nat) (db' : DB) (h : update_job_status db jid s em now = .ok db') :
    1 ≤ jid ∧ db' = { db with jobs := db.jobs.map (jobStatusUpdateRow jid s em now) } := by
  unfold update_job_status at h
  split at h
  · exact Except.noConfusion h
  · rename_i h1
    split at h
    · exact Except.noConfusion h
    · exact ⟨by omega, (Except.ok.inj h).symm⟩

lemma save_job_result_ok_inv (db : DB) (jid : Int) (r : JobResult) (db' : DB)
    (h : save_job_result db jid r = .ok db') :
    db' = { db with jobs := db.jobs.map (jobResultUpdateRow jid r) } := by
  unfold save_job_result at h
  split at h
  · exact Except.noConfusion h
  · exact (Except.ok.inj h).symm

/-- The job table after the worker's finalization: status set to finished,
then the result pointer saved. -/
def finalizedDB (db : DB) (jid : Int) (now : Nat) (outs : List String) : DB :=
  { db with
    jobs := (db.jobs.map (jobStatusUpdateRow jid "finished" none now)).map
      (jobResultUpdateRow jid { finalXlsx := finalXlsxPath jid, batches := outs }) }

lemma finalizedDB_jobs_finished (db : DB) (jid : Int) (now : Nat) (outs : List String) :
    ∀ j ∈ (finalizedDB db jid now outs).jobs, j.id = jid → j.status = "finished" := by
  intro j hj hjid
  simp only [finalizedDB, List.map_map, List.mem_map, Function.comp_apply] at hj
  obtain ⟨j0, _, rfl⟩ := hj
  rw [jobResultUpdateRow_id, jobStatusUpdateRow_id] at hjid
  rw [jobResultUpdateRow_status, jobStatusUpdateRow_finished_self _ _ _ _ hjid]

lemma finalizedDB_jobs_result (db : DB) (jid : Int) (now : Nat) (outs : List String) :
    ∀ j ∈ (finalizedDB db jid now outs).jobs, j.id = jid →
      j.resultJson = some { finalXlsx := finalXlsxPath jid, batches := outs } := by
  intro j hj hjid
  simp only [finalizedDB, List.map_map, List.mem_map, Function.comp_apply] at hj
  obtain ⟨j0, _, rfl⟩ := hj
  rw [jobResultUpdateRow_id] at hjid
  rw [jobResultUpdateRow_self _ _ _ hjid]

lemma finalizeJob_ok (db : DB) (fs : FS) (jid : Int) (now : Nat) (rows : List BatchRow)
    (hjid : 1 ≤ jid) (hrows : get_batches db jid = .ok rows) :
    finalizeJob db fs jid now = .ok (finalizedDB db jid now (collectFinishedOutputs rows),
      merge_excel fs (collectFinishedOutputs rows) (finalXlsxPath jid),
      collectFinishedOutputs rows) := by
  unfold finalizeJob
  rw [hrows, ok_bind, update_job_status_ok db jid "finished" none now hjid (by decide),
    ok_bind, save_job_result_ok _ jid _ hjid, ok_bind]
  rfl

lemma finalizeJob_ok_inv (db : DB) (fs : FS) (jid : Int) (now : Nat)
    (fin : DB × FS × List String) (h : finalizeJob db fs jid now = .ok fin) :
    1 ≤ jid ∧
    ∃ rows, get_batches db jid = .ok rows ∧
      fin = (finalizedDB db jid now (collectFinishedOutputs rows),
        merge_excel fs (collectFinishedOutputs rows) (finalXlsxPath jid),
        collectFinishedOutputs rows) := by
  unfold finalizeJob at h
  obtain ⟨rows, hrows, h⟩ := bind_ok_inv _ _ _ h
  obtain ⟨db1, hupd, h⟩ := bind_ok_inv _ _ _ h
  obtain ⟨hjid, hdb1⟩ := update_job_status_ok_inv _ _ _ _ _ _ hupd
  subst hdb1
  obtain ⟨db2, hsvr, h⟩ := bind_ok_inv _ _ _ h
  have hdb2 := save_job_result_ok_inv _ _ _ _ hsvr
  subst hdb2
  refine ⟨hjid, rows, hrows, ?_⟩
  rw [← Except.ok.inj h]
  rfl

lemma process_job_ok_steps (ex : Executor) (job : JobDesc) (st st' : WState)
    (planned : Except String (FS × List String))
    (hplan : planBatches job (batchesDirOf job.jobId) st.fs = some planned)
    (hok : process_job ex job st = .ok st') :
    ∃ fsFiles db1 rows st2 fin,
      planned = .ok fsFiles ∧
      registerBatchesFrom job.jobId 0 fsFiles.2 st.db = .ok db1 ∧
      get_batches db1 job.jobId = .ok rows ∧
      processBatches ex (outputsDirOf job.jobId) rows
        { db := db1, fs := fsFiles.1, evs := st.evs, clock := st.clock } = .ok st2 ∧
      finalizeJob st2.db st2.fs job.jobId st2.clock = .ok fin ∧
      st'.db = fin.1 ∧ st'.fs = fin.2.1 ∧ st'.evs = st2.evs ++ webhookEvs job := by
  simp only [process_job] at hok
  rw [hplan] at hok
  obtain ⟨fsFiles, hpl, hok⟩ := bind_ok_inv _ _ _ hok
  obtain ⟨db1, hreg, hok⟩ := bind_ok_inv _ _ _ hok
  obtain ⟨rows, hrows, hok⟩ := bind_ok_inv _ _ _ hok
  obtain ⟨st2, hpb, hok⟩ := bind_ok_inv _ _ _ hok
  obtain ⟨fin, hfin, hok⟩ := bind_ok_inv _ _ _ hok
  refine ⟨fsFiles, db1, rows, st2, fin, hpl, hreg, hrows, hpb, hfin, ?_⟩
  cases hwh : job.webhook with
  | none =>
      rw [hwh] at hok
      have h3 := Except.ok.inj hok
      rw [← h3]
      exact ⟨rfl, rfl, by simp [webhookEvs, hwh]⟩
  | some url =>
      rw [hwh] at hok
      have h3 := Except.ok.inj hok
      rw [← h3]
      exact ⟨rfl, rfl, by simp [webhookEvs, hwh]⟩

/-! ### Claim C6 — the job finishes regardless of batch failures -/

/-- C6: for every job with a valid input that `process_job` handles without a
job-level exception (it returns normally), the job row ends in status
`finished` — for every executor oracle, hence regardless of how many batch
attempts failed — and every batch in the iterated snapshot that was not
already finished received at least one executor attempt: a batch failure
never aborts sibling batches or the job. -/
theorem C6_job_finished_regardless_of_batch_failures (ex : Executor) (job : JobDesc)
    (st st' : WState) (planned : Except String (FS × List String))
    (hplan : planBatches job (batchesDirOf job.jobId) st.fs = some planned)
    (hok : process_job ex job st = .ok st') :
    (∀ j ∈ st'.db.jobs, j.id = job.jobId → j.status = "finished") ∧
    ∃ (rows : List BatchRow) (evs' : List Ev), st'.evs = st.evs ++ evs' ∧
      (∀ b ∈ st.db.batches, b.jobId = job.jobId → b ∈ rows) ∧
      ∀ row ∈ rows, row.status ≠ "finished" →
        ∃ a, Ev.execCall row.id row.batchIndex a ∈ evs' := by
  obtain ⟨fsFiles, db1, rows, st2, fin, hpl, hreg, hrows, hpb, hfin, hdb, hfs, hevs⟩ :=
    process_job_ok_steps ex job st st' planned hplan hok
  obtain ⟨hjid, rows2, hrows2, hfin2⟩ := finalizeJob_ok_inv _ _ _ _ _ hfin
  constructor
  · intro j hj hjid2
    rw [hdb, hfin2] at hj
    exact finalizedDB_jobs_finished _ _ _ _ j hj hjid2
  · obtain ⟨hj2, hsk2, hnj2, hnb2, hfs2, evs2, hevs2, hcond2, hatt2⟩ :=
      processBatches_ok_inv ex (outputsDirOf job.jobId) rows _ st2 hpb
    obtain ⟨hjobs1, hbat1, hnj1⟩ := registerBatchesFrom_ok_inv _ _ _ _ _ hreg
    refine ⟨rows, evs2 ++ webhookEvs job, ?_, ?_, ?_⟩
    · rw [hevs, hevs2]
      simp [List.append_assoc]
    · intro b hb hbj
      have hbmem : b ∈ db1.batches := by
        rw [hbat1]
        exact List.mem_append_left _ hb
      have hmemf : b ∈ db1.batches.filter (fun bb => bb.jobId == job.jobId) := by
        rw [List.mem_filter]
        exact ⟨hbmem, beq_iff_eq.mpr hbj⟩
      have hrows' := get_batches_ok_inv _ _ _ hrows
      rw [hrows', List.mem_insertionSort]
      exact hmemf
    · intro row hrow hrs
      obtain ⟨a, ha⟩ := hatt2 row hrow hrs
      exact ⟨a, List.mem_append_left _ ha⟩

/-- A job row sitting in status `running`, as the main loop leaves it before
calling `process_job`. -/
def jrowRunning : JobRow :=
  { id := 1, ownerEmail := .pynone, inputJson := .pydict [], status := "running",
    createdAt := 0, startedAt := some 0, finishedAt := none, resultJson := none,
    logPath := none, errorMsg := none }

/-- A single-query job descriptor for job 1. -/
def qjob : JobDesc :=
  { jobId := 1, inputType := none, inputPath := none, query := some "q", webhook := none }

/-- An executor that always fails. -/
def exFail : Executor := fun _ _ => .failure "always fails"

/-- An executor that always succeeds with one result row. -/
def exOk : Executor := fun _ _ => .success ["r1"]

def c6st : WState :=
  { db := { jobs := [jrowRunning], batches := [], nextJobId := 2, nextBatchId := 1 },
    fs := [], evs := [], clock := 0 }

def c6res : WState := (process_job exFail qjob c6st).toOption.getD c6st

/-- Witness for `C6_job_finished_regardless_of_batch_failures`: a fresh
single-query job processed with an executor that fails on every attempt
still returns normally and leaves the job `finished`. -/
theorem C6_job_finished_regardless_witness :
    process_job exFail qjob c6st = .ok c6res ∧
    ∀ j ∈ c6res.db.jobs, j.id = qjob.jobId → j.status = "finished" :=
  ⟨rfl,
    (C6_job_finished_regardless_of_batch_failures exFail qjob c6st c6res _ rfl rfl).1⟩

/-! ### Claim C1 — redelivery: planning is re-run, only the skip-if-finished
check prevents duplicate work on the old rows -/

lemma eq_of_mem_nodup_map_id (l : List BatchRow) (hnd : (l.map BatchRow.id).Nodup) :
    ∀ a b : BatchRow, a ∈ l → b ∈ l → a.id = b.id → a = b := by
  induction l with
  | nil =>
      intro a b ha _ _
      exact absurd ha (List.not_mem_nil _)
  | cons x xs ih =>
      rw [List.map_cons, List.nodup_cons] at hnd
      intro a b ha hb hid
      rw [List.mem_cons] at ha hb
      rcases ha with rfl | ha <;> rcases hb with rfl | hb
      · rfl
      · have hmem : a.id ∈ xs.map BatchRow.id := hid ▸ List.mem_map_of_mem BatchRow.id hb
        exact absurd hmem hnd.1
      · have hmem : b.id ∈ xs.map BatchRow.id := hid ▸ List.mem_map_of_mem BatchRow.id ha
        exact absurd hmem hnd.1
      · exact ih hnd.2 a b ha hb hid

/-- C1 (amended): on redelivery of a single-query job, `process_job` re-runs
planning unconditionally: even when batch rows for the job already exist in
the store, one new batch row is registered (so duplicate rows, and duplicate
work for their indexes, are created). Progress is preserved only by the
per-row skip check: a pre-existing batch row whose status is `finished` and
whose output file exists is itself never re-executed, while every
pre-existing batch row not yet finished is (re)attempted. -/
theorem C1_redelivery_replans_but_skips_finished (ex : Executor) (job : JobDesc)
    (st st' : WState) (q : String) (hq : job.query = some q) (hqne : q ≠ "")
    (hit : job.inputType = none)
    (hwfb : ∀ b ∈ st.db.batches, b.id < st.db.nextBatchId)
    (hnd : (st.db.batches.map BatchRow.id).Nodup)
    (hok : process_job ex job st = .ok st') :
    st'.db.batches.length = st.db.batches.length + 1 ∧
    ∃ evs' : List Ev, st'.evs = st.evs ++ evs' ∧
      (∀ b ∈ st.db.batches, b.jobId = job.jobId → b.status = "finished" →
        (fsLookup st.fs (outXlsxOf (outputsDirOf job.jobId) b.batchIndex)).isSome = true →
        ∀ idx a, Ev.execCall b.id idx a ∉ evs') ∧
      ∀ b ∈ st.db.batches, b.jobId = job.jobId → b.status ≠ "finished" →
        ∃ a, Ev.execCall b.id b.batchIndex a ∈ evs' := by
  have hq0 : (q == "") = false := beq_eq_false_iff_ne.mpr hqne
  have hplan : planBatches job (batchesDirOf job.jobId) st.fs
      = some (.ok (fsWrite st.fs (batchesDirOf job.jobId ++ "/batch_0000.json")
          { size := 1, table := none },
        [batchesDirOf job.jobId ++ "/batch_0000.json"])) := by
    unfold planBatches
    rw [hit, hq]
    simp [optTruthy, hq0]
  obtain ⟨fsFiles, db1, rows, st2, fin, hpl, hreg, hrows, hpb, hfin, hdb, hfs2, hevs⟩ :=
    process_job_ok_steps ex job st st' _ hplan hok
  have hff := Except.ok.inj hpl
  subst hff
  obtain ⟨hjobs1, hbat1, hnj1⟩ := registerBatchesFrom_ok_inv _ _ _ _ _ hreg
  obtain ⟨hj2, hsk2, hnj2, hnb2, hfsmono, evs2, hevs2, hcond2, hatt2⟩ :=
    processBatches_ok_inv ex (outputsDirOf job.jobId) rows _ st2 hpb
  obtain ⟨hjid, rows2, hrows2, hfin2⟩ := finalizeJob_ok_inv _ _ _ _ _ hfin
  have hb' : st'.db.batches = st2.db.batches := by
    rw [hdb, hfin2]
    rfl
  have hlen2 : st2.db.batches.length = db1.batches.length := by
    have h := congrArg List.length hsk2
    simpa using h
  refine ⟨?_, evs2 ++ webhookEvs job, ?_, ?_, ?_⟩
  · rw [hb', hlen2, hbat1]
    simp [plannedRows]
  · rw [hevs, hevs2]
    simp [List.append_assoc]
  · intro b hb hbj hbs hbout idx a hmem
    rw [List.mem_append] at hmem
    rcases hmem with hmem | hmem
    · obtain ⟨row, hrowmem, hrowid, hrownc⟩ := hcond2 b.id idx a hmem
      have hrows' := get_batches_ok_inv _ _ _ hrows
      rw [hrows', List.mem_insertionSort, List.mem_filter] at hrowmem
      obtain ⟨hrowdb, hrowjid⟩ := hrowmem
      rw [hbat1, List.mem_append] at hrowdb
      rcases hrowdb with hold | hnew
      · have heqb : row = b := eq_of_mem_nodup_map_id st.db.batches hnd row b hold hb hrowid
        subst heqb
        apply hrownc
        exact ⟨hbs, fsWrite_mono _ _ _ _ hbout⟩
      · have h1 : st.db.nextBatchId ≤ row.id := plannedRows_id_ge _ _ _ _ row hnew
        have h2 : b.id < st.db.nextBatchId := hwfb b hb
        rw [hrowid] at h1
        omega
    · exact absurd hmem (execCall_not_mem_webhookEvs job b.id idx a)
  · intro b hb hbj hbs
    have hrows' := get_batches_ok_inv _ _ _ hrows
    have hbmem : b ∈ rows := by
      rw [hrows', List.mem_insertionSort, List.mem_filter]
      refine ⟨?_, beq_iff_eq.mpr hbj⟩
      rw [hbat1]
      exact List.mem_append_left _ hb
    obtain ⟨a, ha⟩ := hatt2 b hbmem hbs
    exact ⟨a, List.mem_append_left _ ha⟩

/-- A batch row of job 1 that already finished in an earlier delivery, with
its output file present on disk. -/
def c1oldBatch : BatchRow :=
  { id := 1, jobId := 1, batchIndex := 0,
    inputPath := "/data/jobs/job_1/batches/batch_0000.json",
    outputPath := some "/data/jobs/job_1/outputs/batch_0000_output.xlsx",
    status := "finished", startedAt := some 0, finishedAt := some 1, errorMsg := none }

def c1st : WState :=
  { db := { jobs := [jrowRunning], batches := [c1oldBatch], nextJobId := 2, nextBatchId := 2 },
    fs := [("/data/jobs/job_1/outputs/batch_0000_output.xlsx",
      { size := 3, table := some ["old1", "old2"] })],
    evs := [], clock := 0 }

def c1res : WState := (process_job exOk qjob c1st).toOption.getD c1st

/-- C1 counterexample: a redelivered single-query job whose only batch row
already exists and is `finished` with its output file on disk. `process_job`
does not skip planning: it registers a second batch row (id 2) with the same
batch index 0, and the executor is invoked once for that duplicate row —
refuting "if batch rows for the job already exist, the planning step is
skipped (no new batch rows are created)" and "processing creates no
duplicate work". -/
theorem C1_cex_redelivery_replans_and_duplicates :
    c1st.db.batches.map (fun b => (b.id, b.batchIndex, b.status)) = [(1, 0, "finished")] ∧
    process_job exOk qjob c1st = .ok c1res ∧
    c1res.db.batches.map (fun b => (b.id, b.batchIndex, b.status))
      = [(1, 0, "finished"), (2, 0, "finished")] ∧
    numExecCalls c1res.evs = 1 :=
  ⟨rfl, rfl, rfl, rfl⟩

/-- Witness for `C1_redelivery_replans_but_skips_finished` at the concrete
redelivered job `c1st`. -/
theorem C1_redelivery_replans_but_skips_finished_witness :
    process_job exOk qjob c1st = .ok c1res ∧
    c1res.db.batches.length = c1st.db.batches.length + 1 :=
  ⟨rfl, (C1_redelivery_replans_but_skips_finished exOk qjob c1st c1res "q" rfl (by decide)
    rfl (by decide) (by decide) rfl).1⟩

/-! ### Claim C4 — contiguity of batch indexes -/

lemma filter_jobId_idx_of_skel_eq :
    ∀ (l1 l2 : List BatchRow), l1.map skel = l2.map skel →
      ∀ jid, (l1.filter (fun b => b.jobId == jid)).map BatchRow.batchIndex
        = (l2.filter (fun b => b.jobId == jid)).map BatchRow.batchIndex := by
  intro l1
  induction l1 with
  | nil =>
      intro l2 h jid
      cases l2 with
      | nil => rfl
      | cons y ys => simp at h
  | cons x xs ih =>
      intro l2 h jid
      cases l2 with
      | nil => simp at h
      | cons y ys =>
          rw [List.map_cons, List.map_cons] at h
          injection h with h1 h2
          have hid : x.jobId = y.jobId := congrArg (fun t => t.2.1) h1
          have hix : x.batchIndex = y.batchIndex := congrArg (fun t => t.2.2) h1
          rw [List.filter_cons, List.filter_cons, hid]
          cases hj : (y.jobId == jid) with
          | false =>
              simp only [Bool.false_eq_true, if_false]
              exact ih ys h2 jid
          | true =>
              simp only [if_true]
              rw [List.map_cons, List.map_cons, hix, ih ys h2 jid]

lemma sorted_of_map_batchIndex (L : List BatchRow) (xs : List Int)
    (h : L.map BatchRow.batchIndex = xs) (hxs : List.Pairwise (fun a b : Int => a ≤ b) xs) :
    List.Sorted byIndex L := by
  subst h
  rw [List.pairwise_map] at hxs
  exact hxs

/-- C4 (amended): for a job with no pre-existing batch rows (fresh
processing), `get_batches` after `process_job` returns exactly `N` rows with
`batch_index` values `0..N-1`, contiguous and unique; the claim's extension
to "every sequence of core operations, including re-processing the same job"
fails, because re-processing registers duplicate rows (see the
counterexample). -/
theorem C4_contiguous_indexes_for_fresh_jobs (ex : Executor) (job : JobDesc)
    (st st' : WState) (planned : Except String (FS × List String))
    (hplan : planBatches job (batchesDirOf job.jobId) st.fs = some planned)
    (hfresh : ∀ b ∈ st.db.batches, b.jobId ≠ job.jobId)
    (hok : process_job ex job st = .ok st') :
    ∃ (N : Nat) (rows : List BatchRow), get_batches st'.db job.jobId = .ok rows ∧
      rows.map BatchRow.batchIndex = (List.range N).map Int.ofNat ∧
      rows.length = N := by
  obtain ⟨fsFiles, db1, rows0, st2, fin, hpl, hreg, hrows, hpb, hfin, hdb, hfs2, hevs⟩ :=
    process_job_ok_steps ex job st st' planned hplan hok
  obtain ⟨hjobs1, hbat1, hnj1⟩ := registerBatchesFrom_ok_inv _ _ _ _ _ hreg
  obtain ⟨hj2, hsk2, hnj2, hnb2, hfsmono, evs2, hevs2, hcond2, hatt2⟩ :=
    processBatches_ok_inv ex (outputsDirOf job.jobId) rows0 _ st2 hpb
  obtain ⟨hjid, rows2, hrows2, hfin2⟩ := finalizeJob_ok_inv _ _ _ _ _ hfin
  have hskel : st2.db.batches.map skel = db1.batches.map skel := hsk2
  have hidx : (st2.db.batches.filter (fun b => b.jobId == job.jobId)).map BatchRow.batchIndex
      = (db1.batches.filter (fun b => b.jobId == job.jobId)).map BatchRow.batchIndex :=
    filter_jobId_idx_of_skel_eq _ _ hskel job.jobId
  have hfilter1 : st.db.batches.filter (fun b => b.jobId == job.jobId) = [] := by
    rw [List.filter_eq_nil_iff]
    intro b hb
    simp [hfresh b hb]
  have hfilter2 : (plannedRows job.jobId 0 st.db.nextBatchId fsFiles.2).filter
      (fun b => b.jobId == job.jobId) = plannedRows job.jobId 0 st.db.nextBatchId fsFiles.2 := by
    rw [List.filter_eq_self]
    intro b hb
    exact beq_iff_eq.mpr (plannedRows_jobId _ _ _ _ b hb)
  have hidx2 : (db1.batches.filter (fun b => b.jobId == job.jobId)).map BatchRow.batchIndex
      = (List.range' 0 fsFiles.2.length).map Int.ofNat := by
    rw [hbat1, List.filter_append, hfilter1, hfilter2, List.nil_append,
      plannedRows_batchIndex]
  have hLidx : (st2.db.batches.filter (fun b => b.jobId == job.jobId)).map BatchRow.batchIndex
      = (List.range' 0 fsFiles.2.length).map Int.ofNat := by
    rw [hidx, hidx2]
  have hpair : List.Pairwise (fun a b : Int => a ≤ b)
      ((List.range' 0 fsFiles.2.length).map Int.ofNat) := by
    apply List.Pairwise.map Int.ofNat
    · intro a b hab
      exact Int.ofNat_le.mpr (Nat.le_of_lt hab)
    · exact List.pairwise_lt_range' 0 fsFiles.2.length
  have hsorted : List.Sorted byIndex (st2.db.batches.filter (fun b => b.jobId == job.jobId)) :=
    sorted_of_map_batchIndex _ _ hLidx hpair
  have hb' : st'.db.batches = st2.db.batches := by
    rw [hdb, hfin2]
    rfl
  have hget : get_batches st'.db job.jobId
      = .ok (st2.db.batches.filter (fun b => b.jobId == job.jobId)) := by
    rw [get_batches_ok _ _ hjid, hb', List.Sorted.insertionSort_eq hsorted]
  refine ⟨fsFiles.2.length, _, hget, ?_, ?_⟩
  · rw [hLidx, List.range_eq_range']
  · have hlen := congrArg List.length hLidx
    simpa using hlen

def c4st0 : WState :=
  { db := { jobs := [jrowRunning], batches := [], nextJobId := 2, nextBatchId := 1 },
    fs := [], evs := [], clock := 0 }

def c4st1 : WState := (process_job exOk qjob c4st0).toOption.getD c4st0

def c4st2 : WState := (process_job exOk qjob c4st1).toOption.getD c4st0

/-- C4 counterexample: processing a fresh single-query job gives one batch
row with index 0, but re-processing the same job registers a second row with
the same index, after which `get_batches` returns two rows with indexes
`[0, 0]` — not `N` rows with unique contiguous indexes `0..N-1`. This
refutes the claim's "holds after every sequence of core operations,
including re-processing the same job". -/
theorem C4_cex_reprocessing_duplicates_indexes :
    process_job exOk qjob c4st0 = .ok c4st1 ∧
    process_job exOk qjob c4st1 = .ok c4st2 ∧
    (get_batches c4st1.db 1).map (List.map (fun b => b.batchIndex)) = .ok [0] ∧
    (get_batches c4st2.db 1).map (List.map (fun b => b.batchIndex)) = .ok [0, 0] :=
  ⟨rfl, rfl, rfl, rfl⟩

/-- Witness for `C4_contiguous_indexes_for_fresh_jobs` at the concrete fresh
job `c4st0`. -/
theorem C4_contiguous_indexes_for_fresh_jobs_witness :
    process_job exOk qjob c4st0 = .ok c4st1 ∧
    ∃ (N : Nat) (rows : List BatchRow), get_batches c4st1.db qjob.jobId = .ok rows ∧
      rows.map BatchRow.batchIndex = (List.range N).map Int.ofNat ∧
      rows.length = N :=
  ⟨rfl, C4_contiguous_indexes_for_fresh_jobs exOk qjob c4st0 c4st1 _ rfl (by decide) rfl⟩

/-! ### Claim C7 — the artifact is the concatenation of finished outputs -/

/-- The table stored at a batch row's recorded output path. -/
def outputTableAt (fs : FS) (r : BatchRow) : List String :=
  ((fsLookup fs (r.outputPath.getD "")).bind FileData.table).getD []

lemma collect_merge_inputs (fs : FS) : ∀ (rows : List BatchRow),
    (∀ r ∈ rows, r.status = "finished" → ∃ p fd, r.outputPath = some p ∧ p ≠ "" ∧
        fsLookup fs p = some fd ∧ 0 < fd.size ∧ fd.table.isSome = true) →
    (collectFinishedOutputs rows).filterMap (fun f =>
        match fsLookup fs f with
        | none => none
        | some fd => if fd.size > 0 then fd.table else none)
      = (rows.filter (fun r => r.status == "finished")).map (outputTableAt fs) := by
  intro rows
  induction rows with
  | nil => intro _; rfl
  | cons r rest ih =>
      intro hread
      have hrest := fun r2 hr2 => hread r2 (List.mem_cons_of_mem _ hr2)
      rw [List.filter_cons]
      cases hst : (r.status == "finished") with
      | false =>
          simp only [collectFinishedOutputs, List.filterMap_cons, hst, Bool.false_eq_true,
            if_false]
          simp only [collectFinishedOutputs] at ih
          exact ih hrest
      | true =>
          obtain ⟨p, fd, hp, hpne, hfd, hsz, htb⟩ :=
            hread r (List.mem_cons_self _ _) (beq_iff_eq.mp hst)
          obtain ⟨tbl, htbl⟩ := Option.isSome_iff_exists.mp htb
          have hpne' : (p == "") = false := beq_eq_false_iff_ne.mpr hpne
          have hhead : outputTableAt fs r = tbl := by
            simp [outputTableAt, hp, hfd, htbl]
          simp only [collectFinishedOutputs, List.filterMap_cons, hst, if_true, hp, hpne',
            Bool.false_eq_true, if_false, hfd, hsz, htbl, List.map_cons, hhead]
          simp only [collectFinishedOutputs] at ih
          rw [ih hrest]

/-- C7: the rows iterated by the merge are sorted by ascending batch index,
and — when every finished batch has a readable non-empty output file — the
final artifact's content is exactly the concatenation of the outputs of the
batches whose status is `finished`, in that order; batches that never
reached `finished` contribute nothing. -/
theorem C7_artifact_concatenates_finished_outputs (db : DB) (fs : FS) (jid : Int)
    (now : Nat) (rows : List BatchRow) (hjid : 1 ≤ jid)
    (hrows : get_batches db jid = .ok rows)
    (hread : ∀ r ∈ rows, r.status = "finished" → ∃ p fd, r.outputPath = some p ∧ p ≠ "" ∧
      fsLookup fs p = some fd ∧ 0 < fd.size ∧ fd.table.isSome = true)
    (hsome : ∃ r ∈ rows, r.status = "finished") :
    List.Sorted byIndex rows ∧
    ∃ fin, finalizeJob db fs jid now = .ok fin ∧
      (fsLookup fin.2.1 (finalXlsxPath jid)).bind FileData.table
        = some ((rows.filter (fun r => r.status == "finished")).map
            (outputTableAt fs)).flatten := by
  constructor
  · have h := get_batches_ok_inv db jid rows hrows
    rw [h]
    exact List.sorted_insertionSort byIndex _
  · refine ⟨_, finalizeJob_ok db fs jid now rows hjid hrows, ?_⟩
    have hchar := collect_merge_inputs fs rows hread
    have hne : ((rows.filter (fun r => r.status == "finished")).map
        (outputTableAt fs)).isEmpty = false := by
      obtain ⟨r, hr, hrst⟩ := hsome
      have hmem : r ∈ rows.filter (fun r => r.status == "finished") := by
        rw [List.mem_filter]
        exact ⟨hr, beq_iff_eq.mpr hrst⟩
      cases hfil : rows.filter (fun r => r.status == "finished") with
      | nil =>
          rw [hfil] at hmem
          exact absurd hmem (List.not_mem_nil _)
      | cons a l => simp [hfil]
    show (fsLookup (merge_excel fs (collectFinishedOutputs rows) (finalXlsxPath jid))
        (finalXlsxPath jid)).bind FileData.table = _
    unfold merge_excel
    simp only [hchar, hne, Bool.false_eq_true, if_false, fsLookup_fsWrite_self]
    rfl

def c7b0 : BatchRow :=
  { id := 1, jobId := 1, batchIndex := 0, inputPath := "/b0", outputPath := some "/o0",
    status := "finished", startedAt := none, finishedAt := some 1, errorMsg := none }

def c7b1 : BatchRow :=
  { id := 2, jobId := 1, batchIndex := 1, inputPath := "/b1", outputPath := none,
    status := "failed", startedAt := none, finishedAt := some 2, errorMsg := some "e" }

def c7b2 : BatchRow :=
  { id := 3, jobId := 1, batchIndex := 2, inputPath := "/b2", outputPath := some "/o2",
    status := "finished", startedAt := none, finishedAt := some 3, errorMsg := none }

def c7db : DB :=
  { jobs := [jrowRunning], batches := [c7b0, c7b1, c7b2], nextJobId := 2, nextBatchId := 4 }

def c7fs : FS :=
  [("/o0", { size := 2, table := some ["x1"] }), ("/o2", { size := 2, table := some ["y1"] })]

def c7rows : List BatchRow := (get_batches c7db 1).toOption.getD []

/-- Witness for `C7_artifact_concatenates_finished_outputs`: finished
batches 0 and 2 with outputs `x1` and `y1` and a failed batch 1 merge into
an artifact containing exactly `x1` then `y1`. -/
theorem C7_artifact_concatenates_finished_outputs_witness :
    List.Sorted byIndex c7rows ∧
    ∃ fin, finalizeJob c7db c7fs 1 9 = .ok fin ∧
      (fsLookup fin.2.1 (finalXlsxPath 1)).bind FileData.table
        = some ((c7rows.filter (fun r => r.status == "finished")).map
            (outputTableAt c7fs)).flatten :=
  C7_artifact_concatenates_finished_outputs c7db c7fs 1 9 c7rows (by decide) rfl
    (by
      intro r hr hst
      have hlist : c7rows = [c7b0, c7b1, c7b2] := rfl
      rw [hlist, List.mem_cons, List.mem_cons, List.mem_singleton] at hr
      rcases hr with rfl | rfl | rfl
      · exact ⟨"/o0", { size := 2, table := some ["x1"] }, rfl, by decide, rfl, by decide, rfl⟩
      · exact absurd hst (by decide)
      · exact ⟨"/o2", { size := 2, table := some ["y1"] }, rfl, by decide, rfl, by decide, rfl⟩)
    ⟨c7b0, by decide, rfl⟩

/-! ### Claim C10 — an all-unreadable merge writes nothing but the job still
finishes pointing at the never-created artifact -/

/-- The result document `process_job` saves on the job row. -/
def jobResultOf (jid : Int) (outs : List String) : JobResult :=
  { finalXlsx := finalXlsxPath jid, batches := outs }

lemma merge_excel_skips_unreadable (fs : FS) (outs : List String) (finalPath : String)
    (hbad : ∀ p ∈ outs, (match fsLookup fs p with
      | none => True
      | some fd => fd.size = 0 ∨ fd.table = none)) :
    merge_excel fs outs finalPath = fs := by
  have hnil : outs.filterMap (fun f =>
      match fsLookup fs f with
      | none => none
      | some fd => if fd.size > 0 then fd.table else none) = [] := by
    rw [List.filterMap_eq_nil_iff]
    intro p hp
    have hb := hbad p hp
    cases hfd : fsLookup fs p with
    | none => rfl
    | some fd =>
        rw [hfd] at hb
        have hb' : fd.size = 0 ∨ fd.table = none := hb
        rcases hb' with hb1 | hb1
        · show (if fd.size > 0 then fd.table else none) = none
          rw [hb1]
          simp
        · show (if fd.size > 0 then fd.table else none) = none
          rw [hb1]
          simp
  unfold merge_excel
  simp only [hnil, List.isEmpty_nil, if_true]

/-- C10: when every collected finished-batch output file is missing, empty
or unreadable at merge time, the merge silently skips them all and writes no
final artifact file (the filesystem is unchanged, the artifact path stays
absent), yet the job is still marked `finished` and its saved result still
points at the never-created final artifact path. -/
theorem C10_empty_merge_still_finishes_job (db : DB) (fs : FS) (jid : Int) (now : Nat)
    (rows : List BatchRow) (hjid : 1 ≤ jid) (hrows : get_batches db jid = .ok rows)
    (hbad : ∀ p ∈ collectFinishedOutputs rows, (match fsLookup fs p with
      | none => True
      | some fd => fd.size = 0 ∨ fd.table = none)) :
    ∃ fin, finalizeJob db fs jid now = .ok fin ∧
      fin.2.1 = fs ∧
      (fsLookup fs (finalXlsxPath jid) = none →
        fsLookup fin.2.1 (finalXlsxPath jid) = none) ∧
      ∀ j ∈ fin.1.jobs, j.id = jid →
        j.status = "finished" ∧
        j.resultJson = some (jobResultOf jid (collectFinishedOutputs rows)) := by
  refine ⟨_, finalizeJob_ok db fs jid now rows hjid hrows, ?_, ?_, ?_⟩
  · exact merge_excel_skips_unreadable fs _ _ hbad
  · intro h
    show fsLookup (merge_excel fs (collectFinishedOutputs rows) (finalXlsxPath jid))
      (finalXlsxPath jid) = none
    rw [merge_excel_skips_unreadable fs _ _ hbad]
    exact h
  · intro j hj hjid2
    exact ⟨finalizedDB_jobs_finished _ _ _ _ j hj hjid2,
      finalizedDB_jobs_result _ _ _ _ j hj hjid2⟩

def c10b : BatchRow :=
  { id := 1, jobId := 1, batchIndex := 0, inputPath := "/b0", outputPath := some "/gone",
    status := "finished", startedAt := none, finishedAt := some 1, errorMsg := none }

def c10db : DB :=
  { jobs := [jrowRunning], batches := [c10b], nextJobId := 2, nextBatchId := 2 }

def c10rows : List BatchRow := (get_batches c10db 1).toOption.getD []

/-- Witness for `C10_empty_merge_still_finishes_job`: a finished batch whose
recorded output file does not exist merges into nothing on an empty
filesystem, yet the job ends `finished` with a result pointing at the
absent artifact. -/
theorem C10_empty_merge_still_finishes_job_witness :
    ∃ fin, finalizeJob c10db [] 1 5 = .ok fin ∧
      fin.2.1 = [] ∧
      (fsLookup [] (finalXlsxPath 1) = none →
        fsLookup fin.2.1 (finalXlsxPath 1) = none) ∧
      ∀ j ∈ fin.1.jobs, j.id = 1 →
        j.status = "finished" ∧
        j.resultJson = some (jobResultOf 1 (collectFinishedOutputs c10rows)) :=
  C10_empty_merge_still_finishes_job c10db [] 1 5 c10rows (by decide) rfl
    (by
      intro p _
      exact trivial)

end LinkedinAgent
